import Mathlib

/-!
Notification pipeline, socket handshake and presence of the task-management backend.

Shallow embedding of `backend/services/notificationService.js` and of the socket
authentication middleware of `backend/server.js`.

* JavaScript values are modelled by `JsVal` as far as the code inspects them:
  truthiness, `toString()` and the `_id` property.
* Effects are explicit: a `World` holds the persisted `Notification` collection, the
  socket events emitted so far, and a trace of the invocations of the primitive.
* An `async` function that may reject returns `World × Except JsError α`.
* The persistence layer is a parameter `Store`, giving the outcome of
  `save()` / `populate()` for the record being written.
* Calls started by `Array.map` run in the order in which they are issued.
* The socket.io server is a state machine over connection attempts, client messages,
  closes and timer expiries; its state holds the presence map, the live sockets, the room
  memberships, the pending timers and the events delivered.
-/

namespace PeltonAI

/-! ## JavaScript values -/

/-- Errors raised by the modelled code. -/
inductive JsError where
  /-- property access or method call on `undefined` / `null` -/
  | typeError
  /-- rejection of a database call (`save()`, `populate()`, `findById()`) -/
  | storeError
  /-- thrown by `jwt.verify`: bad signature, expired or malformed token -/
  | tokenError
  deriving DecidableEq, Repr

/-- A JavaScript value as far as the service looks at it. -/
inductive JsVal where
  /-- either `undefined` or `null` -/
  | nullish
  /-- a primitive string -/
  | str (s : String)
  /-- an object (ObjectId, populated document, plain object): the result of its
  `toString()` and the value of its `_id` property -/
  | obj (toStr : String) (_id : JsVal)
  deriving DecidableEq, Repr

namespace JsVal

/-- Truthiness: `undefined`, `null` and the empty string are falsy. -/
def truthy : JsVal → Bool
  | nullish => false
  | str s => s != ""
  | obj _ _ => true

/-- Method call `v.toString()`. -/
def toStr : JsVal → Except JsError String
  | nullish => .error .typeError
  | str s => .ok s
  | obj t _ => .ok t

/-- Guard `v && v._id` followed by `v._id.toString()`: the string added to the
recipient set, or `none` when the guard is falsy (`v` falsy, `v` a string, whose `_id`
is undefined, or `v._id` falsy). -/
def guardedId : JsVal → Option String
  | obj _ (str s) => if s != "" then some s else none
  | obj _ (obj t _) => some t
  | _ => none

/-- Expression `v._id || v` for a truthy `v` (the `_id` of a string is undefined). -/
def idOrSelf : JsVal → JsVal
  | obj t i => if i.truthy then i else obj t i
  | v => v

end JsVal

/-- The `project` field of a task: missing, a bare string id, or an object with its
`_id` and `members` properties (`members = none` when the property is undefined). -/
inductive ProjectRef where
  | nullish
  | str (s : String)
  | obj (toStr : String) (_id : JsVal) (members : Option (List JsVal))
  deriving DecidableEq, Repr

namespace ProjectRef

/-- Expression `task.project._id || task.project`. -/
def idOrSelf : ProjectRef → Except JsError JsVal
  | nullish => .error .typeError
  | str s => .ok (.str s)
  | obj t i _ => .ok (if i.truthy then i else .obj t i)

/-- Guard `task.project && task.project.members`: the member array when truthy. -/
def guardedMembers : ProjectRef → Option (List JsVal)
  | obj _ _ (some ms) => some ms
  | _ => none

end ProjectRef

/-! ## Data model -/

structure Task where
  _id : JsVal
  title : String
  assignee : JsVal
  creator : JsVal
  project : ProjectRef
  deriving DecidableEq, Repr

structure Comment where
  _id : JsVal
  deriving DecidableEq, Repr

structure Project where
  _id : JsVal
  name : String
  owner : JsVal
  deriving DecidableEq, Repr

structure Member where
  _id : JsVal
  username : String
  deriving DecidableEq, Repr

/-- The `data` payload of a notification; an absent key is `nullish`. -/
structure NotificationData where
  projectId : JsVal := .nullish
  taskId : JsVal := .nullish
  commentId : JsVal := .nullish
  changes : JsVal := .nullish
  deriving DecidableEq, Repr

/-- A `Notification` document. -/
structure Notification where
  recipient : JsVal
  sender : JsVal
  type : String
  title : String
  message : String
  data : NotificationData
  deriving DecidableEq, Repr

/-- A socket event `io.to(room).emit(event, payload)`. -/
structure SocketEvent where
  room : String
  event : String
  payload : Notification
  deriving DecidableEq, Repr

/-- Argument object of `createNotification`; `io = false` when no socket server is given. -/
structure NotifyArgs where
  recipient : JsVal
  sender : JsVal
  type : String
  title : String
  message : String
  data : NotificationData := {}
  io : Bool
  deriving DecidableEq, Repr

/-- Outcome of writing one record: `save()` followed by the three `populate()` calls. -/
inductive StoreOutcome where
  | ok
  | saveFails
  | populateSenderFails
  | populateProjectFails
  | populateTaskFails
  deriving DecidableEq, Repr

/-- The persistence layer: what happens when a given record is written. -/
abbrev Store := Notification → StoreOutcome

/-- The store that never fails. -/
def Store.reliable : Store := fun _ => .ok

/-- Observable state. -/
structure World where
  /-- persisted notification records, oldest first -/
  saved : List Notification := []
  /-- socket events emitted, oldest first -/
  emitted : List SocketEvent := []
  /-- invocations of `createNotification`, oldest first -/
  calls : List NotifyArgs := []
  deriving DecidableEq, Repr

/-- Result of an async function: the state it leaves and its settlement. -/
abbrev Async (α : Type) := World × Except JsError α

/-! ## `NotificationService` -/

namespace NotificationService

/-- The record built by `new Notification(...)`. -/
def newNotification (a : NotifyArgs) : Notification :=
  { recipient := a.recipient, sender := a.sender, type := a.type, title := a.title,
    message := a.message, data := a.data }

/-- The statements inside the `try` block of `createNotification`. -/
def createNotificationTry (store : Store) (a : NotifyArgs) (w : World) :
    Async (Option Notification) :=
  match a.recipient.toStr with
  | .error e => (w, .error e)
  | .ok r =>
    match a.sender.toStr with
    | .error e => (w, .error e)
    | .ok s =>
      if r = s then (w, .ok none)
      else
        let notification := newNotification a
        match store notification with
        | .saveFails => (w, .error .storeError)
        | .populateSenderFails | .populateProjectFails | .populateTaskFails =>
          ({ w with saved := w.saved ++ [notification] }, .error .storeError)
        | .ok =>
          let w1 := { w with saved := w.saved ++ [notification] }
          let w2 :=
            if a.io then
              { w1 with emitted := w1.emitted ++ [⟨"user_" ++ r, "newNotification", notification⟩] }
            else w1
          (w2, .ok (some notification))

/-- Function `createNotification`: the `try` block, with the `catch` that logs and falls
through (so the function resolves to `undefined`). -/
def createNotification (store : Store) (a : NotifyArgs) (w : World) :
    Async (Option Notification) :=
  match createNotificationTry store a { w with calls := w.calls ++ [a] } with
  | (w1, .ok r) => (w1, .ok r)
  | (w1, .error _) => (w1, .ok none)

/-- Function `createTaskAssignedNotification`: `task.assignee._id || task.assignee` is
`JsVal.idOrSelf`, evaluated after the guard `!task.assignee`. -/
def createTaskAssignedNotification (store : Store) (task : Task) (assignedBy : JsVal)
    (io : Bool) (w : World) : Async (Option Notification) :=
  if !task.assignee.truthy then (w, .ok none)
  else
    match task.project.idOrSelf with
    | .error e => (w, .error e)
    | .ok pid =>
      createNotification store
        { recipient := task.assignee.idOrSelf, sender := assignedBy, type := "task_assigned",
          title := "New Task Assigned",
          message := "You have been assigned to task: \"" ++ task.title ++ "\"",
          data := { projectId := pid, taskId := task._id }, io := io } w

/-- Method `Set.prototype.add` on a set kept in insertion order. -/
def setAdd (s : List String) (x : String) : List String :=
  if x ∈ s then s else s ++ [x]

/-- Statement `recipients.add(v._id.toString())` under the guard `v && v._id`. -/
def addGuarded (s : List String) (v : JsVal) : List String :=
  match v.guardedId with
  | some x => setAdd s x
  | none => s

/-- Expression `Array.from(recipients).map(recipientId => this.createNotification(...))` followed by
`Promise.all`: `mk` evaluates the argument object for one recipient. -/
def mapNotify (store : Store) (mk : String → Except JsError NotifyArgs) :
    List String → World → Async (List (Option Notification))
  | [], w => (w, .ok [])
  | r :: rs, w =>
    match mk r with
    | .error e => (w, .error e)
    | .ok a =>
      match createNotification store a w with
      | (w1, .error e) => (w1, .error e)
      | (w1, .ok n) =>
        match mapNotify store mk rs w1 with
        | (w2, .error e) => (w2, .error e)
        | (w2, .ok ns) => (w2, .ok (n :: ns))

/-- Argument object built for one recipient by `createTaskUpdatedNotification`, once
`task.project._id || task.project` has evaluated to `pid`. -/
def updatedArgs (task : Task) (updatedBy changes : JsVal) (io : Bool) (pid : JsVal)
    (recipientId : String) : NotifyArgs :=
  { recipient := .str recipientId, sender := updatedBy, type := "task_updated",
    title := "Task Updated",
    message := "Task \"" ++ task.title ++ "\" has been updated",
    data := { projectId := pid, taskId := task._id, changes := changes }, io := io }

/-- Function `createTaskUpdatedNotification`. -/
def createTaskUpdatedNotification (store : Store) (task : Task) (updatedBy : JsVal)
    (changes : JsVal) (io : Bool) (w : World) : Async (List (Option Notification)) :=
  let recipients := addGuarded (addGuarded [] task.assignee) task.creator
  mapNotify store (fun recipientId =>
    match task.project.idOrSelf with
    | .error e => .error e
    | .ok pid => .ok (updatedArgs task updatedBy changes io pid recipientId)) recipients w

/-- The `forEach` over `task.project.members` of `createTaskCompletedNotification`. -/
def addMembers (completedBy : JsVal) : List JsVal → List String → Except JsError (List String)
  | [], s => .ok s
  | member :: rest, s =>
    match member.toStr with
    | .error e => .error e
    | .ok m =>
      match completedBy.toStr with
      | .error e => .error e
      | .ok k => addMembers completedBy rest (if m ≠ k then setAdd s m else s)

/-- Argument object built for one recipient by `createTaskCompletedNotification`. -/
def completedArgs (task : Task) (completedBy : JsVal) (io : Bool) (pid : JsVal)
    (recipientId : String) : NotifyArgs :=
  { recipient := .str recipientId, sender := completedBy, type := "task_completed",
    title := "Task Completed",
    message := "Task \"" ++ task.title ++ "\" has been completed",
    data := { projectId := pid, taskId := task._id }, io := io }

/-- Function `createTaskCompletedNotification`. -/
def createTaskCompletedNotification (store : Store) (task : Task) (completedBy : JsVal)
    (io : Bool) (w : World) : Async (List (Option Notification)) :=
  let recipients0 := addGuarded [] task.creator
  let recipients1 :=
    match task.project.guardedMembers with
    | some members => addMembers completedBy members recipients0
    | none => .ok recipients0
  match recipients1 with
  | .error e => (w, .error e)
  | .ok recipients =>
    mapNotify store (fun recipientId =>
      match task.project.idOrSelf with
      | .error e => .error e
      | .ok pid => .ok (completedArgs task completedBy io pid recipientId)) recipients w

/-- Argument object built for one recipient by `createCommentNotification`. -/
def commentArgs (task : Task) (c : Comment) (commentedBy : JsVal) (io : Bool) (pid : JsVal)
    (recipientId : String) : NotifyArgs :=
  { recipient := .str recipientId, sender := commentedBy, type := "task_commented",
    title := "New Comment",
    message := "New comment on task: \"" ++ task.title ++ "\"",
    data := { projectId := pid, taskId := task._id, commentId := c._id }, io := io }

/-- Function `createCommentNotification`; `comment = none` is a missing comment. -/
def createCommentNotification (store : Store) (task : Task) (comment : Option Comment)
    (commentedBy : JsVal) (io : Bool) (w : World) : Async (List (Option Notification)) :=
  let recipients := addGuarded (addGuarded [] task.assignee) task.creator
  mapNotify store (fun recipientId =>
    match task.project.idOrSelf with
    | .error e => .error e
    | .ok pid =>
      match comment with
      | none => .error .typeError
      | some c => .ok (commentArgs task c commentedBy io pid recipientId)) recipients w

/-- Function `createProjectJoinedNotification`; `newMember = none` is a missing member. -/
def createProjectJoinedNotification (store : Store) (project : Project)
    (newMember : Option Member) (io : Bool) (w : World) : Async (Option Notification) :=
  match newMember with
  | none => (w, .error .typeError)
  | some m =>
    createNotification store
      { recipient := project.owner, sender := m._id, type := "project_joined",
        title := "New Team Member",
        message := m.username ++ " joined your project: \"" ++ project.name ++ "\"",
        data := { projectId := project._id }, io := io } w

end NotificationService

/-! ## Effect of one call of the primitive -/

namespace NotificationService

/-- A record whose recipient and sender have the same `toString()`. -/
def selfAddressed (n : Notification) : Bool :=
  match n.recipient.toStr, n.sender.toStr with
  | .ok r, .ok s => r == s
  | _, _ => false

/-- The record a call tries to write: none when an identity is missing or when
recipient and sender coincide. -/
def attempted (a : NotifyArgs) : Option (String × Notification) :=
  match a.recipient.toStr, a.sender.toStr with
  | .ok r, .ok s => if r = s then none else some (r, newNotification a)
  | _, _ => none

/-- Records persisted by one call. -/
def savedBy (store : Store) (a : NotifyArgs) : List Notification :=
  match attempted a with
  | some (_, n) => if store n = .saveFails then [] else [n]
  | none => []

/-- Events emitted by one call. -/
def emittedBy (store : Store) (a : NotifyArgs) : List SocketEvent :=
  match attempted a with
  | some (r, n) =>
    if store n = .ok ∧ a.io = true then [⟨"user_" ++ r, "newNotification", n⟩] else []
  | none => []

/-- Value one call resolves to. -/
def returnedBy (store : Store) (a : NotifyArgs) : Option Notification :=
  match attempted a with
  | some (_, n) => if store n = .ok then some n else none
  | none => none

/-- The second state extends the first, and no added record or event payload has a
recipient equal to its sender. -/
def NoSelfAdded (w w1 : World) : Prop :=
  (∃ ns, w1.saved = w.saved ++ ns ∧ ∀ n ∈ ns, selfAddressed n = false) ∧
  (∃ es, w1.emitted = w.emitted ++ es ∧ ∀ e ∈ es, selfAddressed e.payload = false)

end NotificationService

/-! ## Socket authentication middleware (`server.js`) -/

namespace Server

/-- A user document as the middleware reads it: `user._id.toString()` and `user.username`. -/
structure User where
  _id : String
  username : String
  deriving DecidableEq, Repr

/-- A socket during the handshake: its id, the token of `socket.handshake.auth`
(`none` when undefined), and the fields the middleware attaches. -/
structure Socket where
  id : String
  token : Option String
  userId : Option String := none
  username : Option String := none
  user : Option User := none
  deriving DecidableEq, Repr

/-- The collaborators of the middleware. -/
structure AuthEnv where
  /-- call `jwt.verify(token, process.env.JWT_SECRET)`: the `userId` field of the decoded
  payload, or the error thrown -/
  verify : String → Except JsError JsVal
  /-- query `User.findById(id).select("-password")`: the document, `none` for `null`, or the
  rejection of the query -/
  findById : JsVal → Except JsError (Option User)

/-- How the middleware calls `next`. -/
inductive Next where
  /-- call `next()` -/
  | proceed
  /-- call `next(new Error(message))` -/
  | refuse (message : String)
  deriving DecidableEq, Repr

/-- The statements inside the `try` block of the middleware. -/
def authMiddlewareTry (env : AuthEnv) (socket : Socket) : Except JsError (Socket × Next) :=
  match socket.token with
  | none => .ok (socket, .refuse "Authentication error")
  | some token =>
    if token = "" then .ok (socket, .refuse "Authentication error")
    else
      match env.verify token with
      | .error e => .error e
      | .ok userId =>
        match env.findById userId with
        | .error e => .error e
        | .ok none => .ok (socket, .refuse "User not found")
        | .ok (some user) =>
          .ok ({ socket with userId := some user._id, username := some user.username,
                             user := some user }, .proceed)

/-- The socket authentication middleware `io.use(async (socket, next) => ...)`. -/
def authMiddleware (env : AuthEnv) (socket : Socket) : Socket × Next :=
  match authMiddlewareTry env socket with
  | .ok r => r
  | .error _ => (socket, .refuse "Authentication error")

/-! ## Presence, rooms and relays (`server.js`, `io.on("connection", ...)`)

The socket.io server is modelled by what the handlers read and write: the live sockets
(`io.sockets.sockets`), the room memberships of the in-memory adapter in arrival order,
the pending `setTimeout` callbacks and the events delivered to each socket. The room that
socket.io gives every socket under its own id is left out (no handler names it), and so
is the `joinedAt` / `timestamp` clock value. A `projectId` is the string that the template
literal renders. -/

/-- A socket as the connection handler sees it: its id and the fields attached by the
middleware. -/
structure Session where
  id : String
  userId : String
  username : String
  user : User
  deriving DecidableEq, Repr

/-- The handshake: the session handed to the connection handler when the middleware
calls `next()`, `none` when it refuses (socket.io then emits no connection event). -/
def handshake (env : AuthEnv) (socket : Socket) : Option Session :=
  match authMiddleware env socket with
  | (s, .proceed) =>
    match s.userId, s.username, s.user with
    | some userId, some username, some user => some ⟨s.id, userId, username, user⟩
    | _, _, _ => none
  | (_, .refuse _) => none

/-- A value of the `connectedUsers` map. -/
structure PresenceEntry where
  socketId : String
  username : String
  user : User
  deriving DecidableEq, Repr

/-- One element of an `onlineMembers` list. -/
structure OnlineMember where
  _id : String
  username : String
  socketId : String
  deriving DecidableEq, Repr

/-- Payload of a server-to-client event. -/
inductive Payload where
  | connected (message userId username : String)
  | onlineMembers (members : List OnlineMember)
  | userActivity (userId username : String) (activity : JsVal)
  | task (task : JsVal)
  | taskDeleted (taskId taskTitle : JsVal) (deletedBy : String)
  | testNotificationResponse (message : String) (data : JsVal)
  | newNotification (notification : Notification)
  deriving DecidableEq, Repr

/-- An event delivered to one socket. -/
structure Delivery where
  socketId : String
  event : String
  payload : Payload
  deriving DecidableEq, Repr

/-- A pending `setTimeout` callback with what its closure captures. -/
inductive Timer where
  /-- scheduled by the `leaveProject` handler: captures `projectId` -/
  | leaveRecompute (projectId : String)
  /-- scheduled by the `disconnect` handler: captures `room` and `socket` -/
  | disconnectRecompute (room : String) (socketId : String)
  deriving DecidableEq, Repr

/-- State of the server process. -/
structure ServerState where
  /-- the `connectedUsers` map, keys in insertion order -/
  connectedUsers : List (String × PresenceEntry) := []
  /-- live sockets, `io.sockets.sockets` -/
  sockets : List Session := []
  /-- pairs (room, socket id) of the adapter, in order of joining -/
  memberships : List (String × String) := []
  /-- pending timers, oldest first -/
  timers : List Timer := []
  /-- events delivered, oldest first -/
  outbox : List Delivery := []
  deriving DecidableEq, Repr

/-- Method `Map.prototype.set`: overwrite in place or append. -/
def mapSet (m : List (String × PresenceEntry)) (k : String) (v : PresenceEntry) :
    List (String × PresenceEntry) :=
  match m with
  | [] => [(k, v)]
  | (k1, v1) :: rest => if k1 = k then (k, v) :: rest else (k1, v1) :: mapSet rest k v

/-- Method `Map.prototype.delete`. -/
def mapDelete (m : List (String × PresenceEntry)) (k : String) :
    List (String × PresenceEntry) :=
  m.filter (fun e => e.1 ≠ k)

/-- Method `Map.prototype.get`. -/
def mapGet (m : List (String × PresenceEntry)) (k : String) : Option PresenceEntry :=
  (m.find? (fun e => e.1 = k)).map (fun e => e.2)

namespace ServerState

/-- Presence check `connectedUsers.has(identity)`. -/
def isOnline (st : ServerState) (identity : String) : Bool :=
  (mapGet st.connectedUsers identity).isSome

/-- Lookup `io.sockets.sockets.get(socketId)`. -/
def findSocket (st : ServerState) (socketId : String) : Option Session :=
  st.sockets.find? (fun s => s.id = socketId)

/-- Lookup `io.sockets.adapter.rooms.get(room)`: the socket ids of the room in arrival
order; `none` (undefined) when the room has no member, since the adapter deletes an empty
room. -/
def roomGet (st : ServerState) (room : String) : Option (List String) :=
  match (st.memberships.filter (fun m => m.1 = room)).map (fun m => m.2) with
  | [] => none
  | ids => some ids

/-- Getter `socket.rooms`: the rooms of one socket. -/
def socketRooms (st : ServerState) (socketId : String) : List String :=
  (st.memberships.filter (fun m => m.2 = socketId)).map (fun m => m.1)

/-- Method `socket.join(room)`. -/
def join (st : ServerState) (socketId room : String) : ServerState :=
  if (room, socketId) ∈ st.memberships then st
  else { st with memberships := st.memberships ++ [(room, socketId)] }

/-- Method `socket.leave(room)`. -/
def leave (st : ServerState) (socketId room : String) : ServerState :=
  { st with memberships := st.memberships.filter (fun m => m ≠ (room, socketId)) }

/-- What socket.io does when a socket closes, before it emits "disconnect": the socket
leaves all its rooms and is removed from `io.sockets.sockets`. -/
def cleanup (st : ServerState) (socketId : String) : ServerState :=
  { st with memberships := st.memberships.filter (fun m => m.2 ≠ socketId),
            sockets := st.sockets.filter (fun s => s.id ≠ socketId) }

/-- Emission `socket.emit(event, payload)`. -/
def emitTo (st : ServerState) (socketId event : String) (payload : Payload) : ServerState :=
  { st with outbox := st.outbox ++ [⟨socketId, event, payload⟩] }

/-- Emission `io.to(room).emit(event, payload)` (`except = none`) or
`socket.to(room).emit(event, payload)` (`except` the id of `socket`): one delivery per
socket of the room, the excepted one left out. -/
def emitRoom (st : ServerState) (room event : String) (payload : Payload)
    (except : Option String) : ServerState :=
  let targets :=
    match st.roomGet room with
    | none => []
    | some ids => ids.filter (fun id => some id ≠ except)
  { st with outbox := st.outbox ++ targets.map (fun id => ⟨id, event, payload⟩) }

/-- The loop `for (const socketId of projectRoom)` that builds `onlineMembers`; the
`disconnect` callback also skips the socket whose id is `skip`. -/
def onlineMembersOf (st : ServerState) (ids : List String) (skip : Option String) :
    List OnlineMember :=
  ids.filterMap (fun socketId =>
    match st.findSocket socketId with
    | none => none
    | some userSocket =>
      if some userSocket.id = skip then none
      else some ⟨userSocket.userId, userSocket.username, socketId⟩)

end ServerState

open ServerState

/-- The body of `io.on("connection", (socket) => ...)` up to the registration of the
listeners. -/
def onConnection (socket : Session) (st : ServerState) : ServerState :=
  let entry : PresenceEntry := ⟨socket.id, socket.username, socket.user⟩
  let st1 := { st with connectedUsers := mapSet st.connectedUsers socket.userId entry }
  let st2 := st1.join socket.id ("user_" ++ socket.userId)
  st2.emitTo socket.id "connected"
    (.connected "Successfully connected to server" socket.userId socket.username)

/-- Listener `socket.on("joinProject", ...)`. -/
def onJoinProject (socket : Session) (projectId : String) (st : ServerState) : ServerState :=
  let st1 := st.join socket.id ("project_" ++ projectId)
  match st1.roomGet ("project_" ++ projectId) with
  | none => st1
  | some projectRoom =>
    st1.emitRoom ("project_" ++ projectId) "onlineMembers"
      (.onlineMembers (st1.onlineMembersOf projectRoom none)) none

/-- Listener `socket.on("leaveProject", ...)`. -/
def onLeaveProject (socket : Session) (projectId : String) (st : ServerState) : ServerState :=
  let st1 := st.leave socket.id ("project_" ++ projectId)
  { st1 with timers := st1.timers ++ [.leaveRecompute projectId] }

/-- Listener `socket.on("userActivity", ...)`. -/
def onUserActivity (socket : Session) (projectId : String) (activity : JsVal)
    (st : ServerState) : ServerState :=
  st.emitRoom ("project_" ++ projectId) "userActivity"
    (.userActivity socket.userId socket.username activity) (some socket.id)

/-- Listener `socket.on("taskCreated", ...)`; reading `task.title` throws on a missing
task. -/
def onTaskCreated (socket : Session) (projectId : String) (task : JsVal)
    (st : ServerState) : Except JsError ServerState :=
  match task with
  | .nullish => .error .typeError
  | _ => .ok (st.emitRoom ("project_" ++ projectId) "taskCreated" (.task task) (some socket.id))

/-- Listener `socket.on("taskUpdated", ...)`. -/
def onTaskUpdated (socket : Session) (projectId : String) (task : JsVal)
    (st : ServerState) : Except JsError ServerState :=
  match task with
  | .nullish => .error .typeError
  | _ => .ok (st.emitRoom ("project_" ++ projectId) "taskUpdated" (.task task) (some socket.id))

/-- Listener `socket.on("taskDeleted", ...)`. -/
def onTaskDeleted (socket : Session) (projectId : String) (taskId taskTitle : JsVal)
    (st : ServerState) : ServerState :=
  st.emitRoom ("project_" ++ projectId) "taskDeleted"
    (.taskDeleted taskId taskTitle socket.userId) (some socket.id)

/-- A message object sent by a client: its `projectId` as the template literal renders it
and all its properties by name, whatever the client chose to put there. -/
structure ClientMessage where
  projectId : String
  fields : List (String × JsVal)
  deriving DecidableEq, Repr

/-- Property read `message.name`: `undefined` when the object has no such property. -/
def ClientMessage.get (m : ClientMessage) (name : String) : JsVal :=
  match m.fields.find? (fun f => f.1 = name) with
  | some f => f.2
  | none => .nullish

/-- The "userActivity" listener applied to what the client sent: the parameter pattern
`({ projectId, activity })` throws on `undefined` / `null` (`none`) and otherwise reads
these two properties only. -/
def onUserActivityMessage (socket : Session) (payload : Option ClientMessage)
    (st : ServerState) : Except JsError ServerState :=
  match payload with
  | none => .error .typeError
  | some m => .ok (onUserActivity socket m.projectId (m.get "activity") st)

/-- The "taskDeleted" listener applied to what the client sent: the parameter pattern
`({ projectId, taskId, taskTitle })` throws on `undefined` / `null` (`none`) and otherwise
reads these three properties only. -/
def onTaskDeletedMessage (socket : Session) (payload : Option ClientMessage)
    (st : ServerState) : Except JsError ServerState :=
  match payload with
  | none => .error .typeError
  | some m => .ok (onTaskDeleted socket m.projectId (m.get "taskId") (m.get "taskTitle") st)

/-- The "taskCreated" listener applied to what the client sent: the parameter pattern
`({ projectId, task })` throws on `undefined` / `null` (`none`) and otherwise reads these
two properties only. -/
def onTaskCreatedMessage (socket : Session) (payload : Option ClientMessage)
    (st : ServerState) : Except JsError ServerState :=
  match payload with
  | none => .error .typeError
  | some m => onTaskCreated socket m.projectId (m.get "task") st

/-- The "taskUpdated" listener applied to what the client sent. -/
def onTaskUpdatedMessage (socket : Session) (payload : Option ClientMessage)
    (st : ServerState) : Except JsError ServerState :=
  match payload with
  | none => .error .typeError
  | some m => onTaskUpdated socket m.projectId (m.get "task") st

/-- A listener that throws has emitted nothing: the state stays as it was. -/
def settled (st : ServerState) : Except JsError ServerState → ServerState
  | .ok st1 => st1
  | .error _ => st

/-- Listener `socket.on("testNotification", ...)`. -/
def onTestNotification (socket : Session) (data : JsVal) (st : ServerState) : ServerState :=
  st.emitTo socket.id "testNotificationResponse"
    (.testNotificationResponse "Test notification received successfully" data)

/-- Method `String.prototype.startsWith`. -/
def startsWith (s p : String) : Bool :=
  p.data.isPrefixOf s.data

/-- Listener `socket.on("disconnect", ...)`, run on the state it finds: it drops the
presence entry and schedules one timer per room of `socket.rooms` whose name starts with
"project_". -/
def onDisconnect (socket : Session) (st : ServerState) : ServerState :=
  let st1 := { st with connectedUsers := mapDelete st.connectedUsers socket.userId }
  let rooms := (st1.socketRooms socket.id).filter (fun room => startsWith room "project_")
  { st1 with timers := st1.timers ++ rooms.map (fun room => .disconnectRecompute room socket.id) }

/-- A timer fires: the callback recomputes the list from the rooms as they are now. -/
def fireTimer (t : Timer) (st : ServerState) : ServerState :=
  match t with
  | .leaveRecompute projectId =>
    let onlineMembers :=
      match st.roomGet ("project_" ++ projectId) with
      | none => []
      | some projectRoom => st.onlineMembersOf projectRoom none
    st.emitRoom ("project_" ++ projectId) "onlineMembers" (.onlineMembers onlineMembers) none
  | .disconnectRecompute room socketId =>
    let onlineMembers :=
      match st.roomGet room with
      | none => []
      | some projectRoom => st.onlineMembersOf projectRoom (some socketId)
    st.emitRoom room "onlineMembers" (.onlineMembers onlineMembers) (some socketId)

/-- What can happen to the server: a connection attempt, a client message on a socket
(with whatever payload the client sends), the close of a socket, the expiry of the oldest
timer, and an emission `io.to(room).emit("newNotification", ...)` made by the notification
service through `req.io`. -/
inductive Event where
  | connect (socket : Socket)
  | joinProject (socketId projectId : String)
  | leaveProject (socketId projectId : String)
  | disconnect (socketId : String)
  | timeout
  | userActivity (socketId : String) (payload : Option ClientMessage)
  | taskCreated (socketId : String) (payload : Option ClientMessage)
  | taskUpdated (socketId : String) (payload : Option ClientMessage)
  | taskDeleted (socketId : String) (payload : Option ClientMessage)
  | testNotification (socketId : String) (data : JsVal)
  | serviceEmit (e : SocketEvent)
  deriving DecidableEq, Repr

/-- One event. A connection attempt runs the middleware and, when it is accepted,
registers the socket and runs the connection handler; a message or a close on a socket
that is not live is ignored; a close runs socket.io's cleanup and then the "disconnect"
listener; a listener that throws leaves the state as it found it. -/
def step (env : AuthEnv) (st : ServerState) : Event → ServerState
  | .connect socket =>
    match handshake env socket with
    | none => st
    | some s => onConnection s { st with sockets := st.sockets ++ [s] }
  | .joinProject socketId projectId =>
    match st.findSocket socketId with
    | none => st
    | some s => onJoinProject s projectId st
  | .leaveProject socketId projectId =>
    match st.findSocket socketId with
    | none => st
    | some s => onLeaveProject s projectId st
  | .disconnect socketId =>
    match st.findSocket socketId with
    | none => st
    | some s => onDisconnect s (st.cleanup socketId)
  | .timeout =>
    match st.timers with
    | [] => st
    | t :: rest => fireTimer t { st with timers := rest }
  | .userActivity socketId payload =>
    match st.findSocket socketId with
    | none => st
    | some s => settled st (onUserActivityMessage s payload st)
  | .taskCreated socketId payload =>
    match st.findSocket socketId with
    | none => st
    | some s => settled st (onTaskCreatedMessage s payload st)
  | .taskUpdated socketId payload =>
    match st.findSocket socketId with
    | none => st
    | some s => settled st (onTaskUpdatedMessage s payload st)
  | .taskDeleted socketId payload =>
    match st.findSocket socketId with
    | none => st
    | some s => settled st (onTaskDeletedMessage s payload st)
  | .testNotification socketId data =>
    match st.findSocket socketId with
    | none => st
    | some s => onTestNotification s data st
  | .serviceEmit e => st.emitRoom e.room e.event (.newNotification e.payload) none

/-- A run of events from a state. -/
def run (env : AuthEnv) (st : ServerState) (evs : List Event) : ServerState :=
  evs.foldl (step env) st

/-- Socket ids are unique: a connection attempt carries an id that no live socket has. -/
def Fresh (st : ServerState) : Event → Prop
  | .connect socket => ∀ s ∈ st.sockets, s.id ≠ socket.id
  | _ => True

/-- States the server can be in. -/
inductive Reachable (env : AuthEnv) : ServerState → Prop where
  | start : Reachable env {}
  | next (st : ServerState) (ev : Event) :
      Reachable env st → Fresh st ev → Reachable env (step env st ev)

instance (st : ServerState) (ev : Event) : Decidable (Fresh st ev) := by
  cases ev <;> unfold Fresh <;> infer_instance

/-- Every connection attempt of a run carries an id that is not live when it is made. -/
def FreshRun (env : AuthEnv) : ServerState → List Event → Prop
  | _, [] => True
  | st, ev :: evs => Fresh st ev ∧ FreshRun env (step env st ev) evs

instance (env : AuthEnv) : ∀ (st : ServerState) (evs : List Event),
    Decidable (FreshRun env st evs)
  | _, [] => isTrue trivial
  | st, ev :: evs =>
    have : Decidable (FreshRun env (step env st ev) evs) := instDecidableFreshRun env _ evs
    (inferInstance : Decidable (Fresh st ev ∧ FreshRun env (step env st ev) evs))

/-- Two states with the same live sockets, room memberships and pending timers. -/
def SameBookkeeping (st1 st : ServerState) : Prop :=
  st1.sockets = st.sockets ∧ st1.memberships = st.memberships ∧ st1.timers = st.timers

/-- Consistency of the socket.io bookkeeping: socket ids are unique, every room member is
a live socket, no membership is recorded twice, and a member of a room "user_" ++ I is a
socket of identity I. -/
structure WF (st : ServerState) : Prop where
  ids_nodup : (st.sockets.map (fun s => s.id)).Nodup
  members_live : ∀ m ∈ st.memberships, ∃ s ∈ st.sockets, s.id = m.2
  members_nodup : st.memberships.Nodup
  personal : ∀ m ∈ st.memberships, ∀ I, m.1 = "user_" ++ I →
    ∀ s ∈ st.sockets, s.id = m.2 → s.userId = I

/-- The identities that hold at least one live session, each once. -/
def liveIdentities (st : ServerState) : List String :=
  (st.sockets.map (fun s => s.userId)).dedup

/-- An environment for examples: every non-empty token verifies, its subject is the token
itself, and every subject other than "ghost" is a user named like its id. -/
def exampleEnv : AuthEnv where
  verify := fun token => .ok (.str token)
  findById := fun v =>
    match v with
    | .str i => if i = "ghost" then .ok none else .ok (some ⟨i, i⟩)
    | _ => .ok none

end Server

namespace NotificationService

/-! ## Theorems -/

theorem createNotification_eq (store : Store) (a : NotifyArgs) (w : World) :
    createNotification store a w =
      ({ saved := w.saved ++ savedBy store a, emitted := w.emitted ++ emittedBy store a,
         calls := w.calls ++ [a] }, .ok (returnedBy store a)) := by
  unfold createNotification createNotificationTry savedBy emittedBy returnedBy attempted
  cases hr : a.recipient.toStr with
  | error e => simp
  | ok r =>
    cases hs : a.sender.toStr with
    | error e => simp
    | ok s =>
      by_cases hrs : r = s
      · simp [hrs]
      · cases hst : store (newNotification a) <;> cases hio : a.io <;> simp [hrs, hst, hio]

/-- When argument evaluation succeeds for every recipient, the mapped calls add the
effects of each call in order. -/
theorem mapNotify_ok (store : Store) (mk : String → Except JsError NotifyArgs)
    (f : String → NotifyArgs) (hmk : ∀ r, mk r = .ok (f r)) :
    ∀ (rs : List String) (w : World), mapNotify store mk rs w =
      ({ saved := w.saved ++ rs.flatMap (fun r => savedBy store (f r)),
         emitted := w.emitted ++ rs.flatMap (fun r => emittedBy store (f r)),
         calls := w.calls ++ rs.map f }, .ok (rs.map (fun r => returnedBy store (f r)))) := by
  intro rs
  induction rs with
  | nil => intro w; simp [mapNotify]
  | cons r rs ih =>
    intro w
    simp [mapNotify, hmk, createNotification_eq, ih, List.append_assoc]

/-- When argument evaluation throws, the first mapped call is never made. -/
theorem mapNotify_error (store : Store) (mk : String → Except JsError NotifyArgs)
    (e : JsError) (hmk : ∀ r, mk r = .error e) (r : String) (rs : List String) (w : World) :
    mapNotify store mk (r :: rs) w = (w, .error e) := by
  simp [mapNotify, hmk]

theorem NoSelfAdded.refl (w : World) : NoSelfAdded w w :=
  ⟨⟨[], by simp⟩, ⟨[], by simp⟩⟩

theorem NoSelfAdded.trans {w w1 w2 : World} (h1 : NoSelfAdded w w1) (h2 : NoSelfAdded w1 w2) :
    NoSelfAdded w w2 := by
  obtain ⟨⟨ns1, hs1, hn1⟩, ⟨es1, he1, hm1⟩⟩ := h1
  obtain ⟨⟨ns2, hs2, hn2⟩, ⟨es2, he2, hm2⟩⟩ := h2
  refine ⟨⟨ns1 ++ ns2, by rw [hs2, hs1, List.append_assoc], ?_⟩,
    ⟨es1 ++ es2, by rw [he2, he1, List.append_assoc], ?_⟩⟩
  · intro n hn
    rcases List.mem_append.mp hn with h | h
    · exact hn1 n h
    · exact hn2 n h
  · intro e he
    rcases List.mem_append.mp he with h | h
    · exact hm1 e h
    · exact hm2 e h

theorem attempted_not_self {a : NotifyArgs} {r : String} {n : Notification}
    (h : attempted a = some (r, n)) : selfAddressed n = false := by
  unfold attempted at h
  cases hr : a.recipient.toStr with
  | error e => simp [hr] at h
  | ok r0 =>
    cases hs : a.sender.toStr with
    | error e => simp [hr, hs] at h
    | ok s0 =>
      simp only [hr, hs] at h
      by_cases hrs : r0 = s0
      · simp [hrs] at h
      · simp only [hrs, if_false, Option.some.injEq, Prod.mk.injEq] at h
        obtain ⟨-, rfl⟩ := h
        simp [selfAddressed, newNotification, hr, hs, hrs]

theorem createNotification_noSelf (store : Store) (a : NotifyArgs) (w : World) :
    NoSelfAdded w (createNotification store a w).1 := by
  rw [createNotification_eq]
  refine ⟨⟨savedBy store a, rfl, ?_⟩, ⟨emittedBy store a, rfl, ?_⟩⟩
  · intro n hn
    unfold savedBy at hn
    cases ha : attempted a with
    | none => simp [ha] at hn
    | some p =>
      obtain ⟨r, m⟩ := p
      simp only [ha] at hn
      split at hn
      · simp at hn
      · simp only [List.mem_singleton] at hn
        subst hn
        exact attempted_not_self ha
  · intro ev hev
    unfold emittedBy at hev
    cases ha : attempted a with
    | none => simp [ha] at hev
    | some p =>
      obtain ⟨r, m⟩ := p
      simp only [ha] at hev
      split at hev
      · simp only [List.mem_singleton] at hev
        subst hev
        exact attempted_not_self ha
      · simp at hev

theorem mapNotify_noSelf (store : Store) (mk : String → Except JsError NotifyArgs) :
    ∀ (rs : List String) (w : World), NoSelfAdded w (mapNotify store mk rs w).1 := by
  intro rs
  induction rs with
  | nil => intro w; exact NoSelfAdded.refl w
  | cons r rs ih =>
    intro w
    unfold mapNotify
    cases hmk : mk r with
    | error e => exact NoSelfAdded.refl w
    | ok a =>
      have h1 := createNotification_noSelf store a w
      have h2 := ih (createNotification store a w).1
      rw [createNotification_eq] at h1 h2
      simp only [createNotification_eq]
      simp only at h1 h2
      refine NoSelfAdded.trans h1 ?_
      split <;> simp_all

/-! ### Recipient sets -/

theorem mem_setAdd (s : List String) (x y : String) : y ∈ setAdd s x ↔ y ∈ s ∨ y = x := by
  unfold setAdd
  split
  · constructor
    · intro h; exact Or.inl h
    · rintro (h | h)
      · exact h
      · subst h; assumption
  · simp

theorem nodup_setAdd (s : List String) (x : String) (h : s.Nodup) : (setAdd s x).Nodup := by
  unfold setAdd
  split
  · exact h
  · rename_i hx
    rw [List.nodup_append]
    refine ⟨h, List.nodup_singleton x, ?_⟩
    intro y hy hy1
    rw [List.mem_singleton] at hy1
    subst hy1
    exact hx hy

theorem mem_addGuarded (s : List String) (v : JsVal) (y : String) :
    y ∈ addGuarded s v ↔ y ∈ s ∨ v.guardedId = some y := by
  unfold addGuarded
  cases h : v.guardedId with
  | none => simp
  | some x =>
    simp only [mem_setAdd, Option.some.injEq]
    constructor
    · rintro (h1 | h1)
      · exact Or.inl h1
      · exact Or.inr h1.symm
    · rintro (h1 | h1)
      · exact Or.inl h1
      · exact Or.inr h1.symm

theorem nodup_addGuarded (s : List String) (v : JsVal) (h : s.Nodup) :
    (addGuarded s v).Nodup := by
  unfold addGuarded
  split
  · exact nodup_setAdd _ _ h
  · exact h

/-- The `forEach` over the members succeeds when every member and the completer have a
`toString()`, and adds exactly the members other than the completer. -/
theorem addMembers_spec (completedBy : JsVal) (K : String) (hk : completedBy.toStr = .ok K) :
    ∀ (M : List JsVal) (ids : List String) (s : List String),
      M.map JsVal.toStr = ids.map Except.ok → s.Nodup →
      ∃ R, addMembers completedBy M s = .ok R ∧ R.Nodup ∧
        ∀ x, x ∈ R ↔ x ∈ s ∨ (x ∈ ids ∧ x ≠ K) := by
  intro M
  induction M with
  | nil =>
    intro ids s hM hs
    cases ids with
    | nil => exact ⟨s, rfl, hs, by simp⟩
    | cons i is => simp at hM
  | cons m M ih =>
    intro ids s hM hs
    cases ids with
    | nil => simp at hM
    | cons i is =>
      simp only [List.map_cons, List.cons.injEq] at hM
      obtain ⟨hm, hM⟩ := hM
      unfold addMembers
      simp only [hm, hk]
      by_cases hik : i = K
      · obtain ⟨R, hR, hnd, hmem⟩ := ih is s hM hs
        refine ⟨R, by simpa [hik] using hR, hnd, ?_⟩
        intro x
        rw [hmem x]
        constructor
        · rintro (h | ⟨h1, h2⟩)
          · exact Or.inl h
          · exact Or.inr ⟨List.mem_cons_of_mem _ h1, h2⟩
        · rintro (h | ⟨h1, h2⟩)
          · exact Or.inl h
          · rcases List.mem_cons.mp h1 with h3 | h3
            · exact absurd (h3.trans hik) h2
            · exact Or.inr ⟨h3, h2⟩
      · obtain ⟨R, hR, hnd, hmem⟩ := ih is (setAdd s i) hM (nodup_setAdd _ _ hs)
        refine ⟨R, by simpa [hik] using hR, hnd, ?_⟩
        intro x
        rw [hmem x, mem_setAdd]
        constructor
        · rintro ((h | h) | ⟨h1, h2⟩)
          · exact Or.inl h
          · subst h; exact Or.inr ⟨List.mem_cons_self _ _, hik⟩
          · exact Or.inr ⟨List.mem_cons_of_mem _ h1, h2⟩
        · rintro (h | ⟨h1, h2⟩)
          · exact Or.inl (Or.inl h)
          · rcases List.mem_cons.mp h1 with h3 | h3
            · exact Or.inl (Or.inr h3)
            · exact Or.inr ⟨h3, h2⟩

/-! ### Fan-out over a recipient set -/

theorem flatMap_ite_singleton {α β : Type} (p : α → Prop) [DecidablePred p] (g : α → β)
    (l : List α) :
    l.flatMap (fun x => if p x then [g x] else []) = (l.filter (fun x => decide (p x))).map g := by
  induction l with
  | nil => rfl
  | cons x xs ih =>
    by_cases hx : p x
    · simp [List.flatMap_cons, List.filter_cons, hx, ih]
    · simp [List.flatMap_cons, List.filter_cons, hx, ih]

theorem string_append_cancel (p x y : String) (h : p ++ x = p ++ y) : x = y := by
  have h1 := congrArg String.data h
  simp only [String.data_append] at h1
  exact String.ext (List.append_cancel_left h1)

theorem savedBy_str (store : Store) (a : NotifyArgs) (r K : String)
    (hr : a.recipient = .str r) (hk : a.sender.toStr = .ok K) :
    savedBy store a =
      if r ≠ K ∧ store (newNotification a) ≠ .saveFails then [newNotification a] else [] := by
  have hr1 : a.recipient.toStr = .ok r := by rw [hr]; rfl
  unfold savedBy attempted
  simp only [hr1, hk]
  by_cases hrk : r = K
  · simp [hrk]
  · by_cases hst : store (newNotification a) = .saveFails
    · simp [hrk, hst]
    · simp [hrk, hst]

theorem emittedBy_str (store : Store) (a : NotifyArgs) (r K : String)
    (hr : a.recipient = .str r) (hk : a.sender.toStr = .ok K) :
    emittedBy store a =
      if r ≠ K ∧ store (newNotification a) = .ok ∧ a.io = true then
        [⟨"user_" ++ r, "newNotification", newNotification a⟩]
      else [] := by
  have hr1 : a.recipient.toStr = .ok r := by rw [hr]; rfl
  unfold emittedBy attempted
  simp only [hr1, hk]
  by_cases hrk : r = K
  · simp [hrk]
  · simp [hrk]

/-- Fan-out of one operation over a duplicate-free recipient list `R`, with a sender whose
`toString()` is `K`: one call per element of `R`, one record per element other than `K`
whose `save()` succeeds, one event per element other than `K` whose write fully succeeds. -/
theorem fanout_spec (store : Store) (mk : String → Except JsError NotifyArgs)
    (f : String → NotifyArgs) (hmk : ∀ r, mk r = .ok (f r))
    (sender : JsVal) (K : String) (hk : sender.toStr = .ok K)
    (hf : ∀ r, (f r).recipient = .str r ∧ (f r).sender = sender)
    (R : List String) (hR : R.Nodup) (w : World) :
    ∃ ns es rs,
      mapNotify store mk R w =
        ({ saved := w.saved ++ ns, emitted := w.emitted ++ es, calls := w.calls ++ R.map f },
          .ok rs) ∧
      (ns.map (fun n => n.recipient)).Nodup ∧
      (∀ n ∈ ns, ∃ x ∈ R, x ≠ K ∧ n = newNotification (f x)) ∧
      ((∀ n, store n ≠ .saveFails) → ∀ x ∈ R, x ≠ K → newNotification (f x) ∈ ns) ∧
      (es.map (fun e => e.room)).Nodup ∧
      (∀ e ∈ es, ∃ x ∈ R, x ≠ K ∧ (f x).io = true ∧
        e = ⟨"user_" ++ x, "newNotification", newNotification (f x)⟩) ∧
      ((∀ n, store n = .ok) → ∀ x ∈ R, x ≠ K → (f x).io = true →
        (⟨"user_" ++ x, "newNotification", newNotification (f x)⟩ : SocketEvent) ∈ es) := by
  have hsv : (fun r => savedBy store (f r)) = fun r =>
      if r ≠ K ∧ store (newNotification (f r)) ≠ .saveFails then [newNotification (f r)]
      else [] := by
    funext r
    exact savedBy_str store (f r) r K (hf r).1 (by rw [(hf r).2]; exact hk)
  have hem : (fun r => emittedBy store (f r)) = fun r =>
      if r ≠ K ∧ store (newNotification (f r)) = .ok ∧ (f r).io = true then
        [(⟨"user_" ++ r, "newNotification", newNotification (f r)⟩ : SocketEvent)]
      else [] := by
    funext r
    exact emittedBy_str store (f r) r K (hf r).1 (by rw [(hf r).2]; exact hk)
  refine ⟨_, _, _, mapNotify_ok store mk f hmk R w, ?_, ?_, ?_, ?_, ?_, ?_⟩
  · rw [hsv, flatMap_ite_singleton, List.map_map]
    have : ((fun n : Notification => n.recipient) ∘ fun r => newNotification (f r)) =
        fun r => JsVal.str r := by
      funext r
      simp [newNotification, (hf r).1]
    rw [this]
    refine List.Nodup.map ?_ (List.Nodup.filter _ hR)
    intro x y hxy
    exact JsVal.str.inj hxy
  · intro n hn
    rw [hsv, flatMap_ite_singleton] at hn
    simp only [List.mem_map, List.mem_filter, decide_eq_true_eq] at hn
    obtain ⟨x, ⟨hx, hxk, -⟩, rfl⟩ := hn
    exact ⟨x, hx, hxk, rfl⟩
  · intro hst x hx hxk
    rw [hsv, flatMap_ite_singleton]
    simp only [List.mem_map, List.mem_filter, decide_eq_true_eq]
    exact ⟨x, ⟨hx, hxk, hst _⟩, rfl⟩
  · rw [hem, flatMap_ite_singleton, List.map_map]
    have : ((fun e : SocketEvent => e.room) ∘ fun r =>
        (⟨"user_" ++ r, "newNotification", newNotification (f r)⟩ : SocketEvent)) =
        fun r => "user_" ++ r := by
      funext r
      rfl
    rw [this]
    refine List.Nodup.map ?_ (List.Nodup.filter _ hR)
    intro x y hxy
    exact string_append_cancel _ _ _ hxy
  · intro e he
    rw [hem, flatMap_ite_singleton] at he
    simp only [List.mem_map, List.mem_filter, decide_eq_true_eq] at he
    obtain ⟨x, ⟨hx, hxk, -, hio⟩, rfl⟩ := he
    exact ⟨x, hx, hxk, hio, rfl⟩
  · intro hst x hx hxk hio
    rw [hem, flatMap_ite_singleton]
    simp only [List.mem_map, List.mem_filter, decide_eq_true_eq]
    exact ⟨x, ⟨hx, hxk, hst _, hio⟩, rfl⟩

/-- C1 (self-notification suppression). A call of `createNotification` whose recipient
and sender have the same `toString()` persists nothing, emits nothing and resolves to
`undefined`; and for every input of the five derived operations, every record they
persist and every event they emit has a recipient different from its sender. -/
theorem self_notification_suppressed (store : Store) (w : World) (io : Bool)
    (a : NotifyArgs) (r : String) (hr : a.recipient.toStr = .ok r)
    (hs : a.sender.toStr = .ok r)
    (task : Task) (actor changes : JsVal) (comment : Option Comment)
    (project : Project) (newMember : Option Member) :
    ((createNotification store a w).1.saved = w.saved ∧
      (createNotification store a w).1.emitted = w.emitted ∧
      (createNotification store a w).2 = .ok none) ∧
    NoSelfAdded w (createTaskAssignedNotification store task actor io w).1 ∧
    NoSelfAdded w (createTaskUpdatedNotification store task actor changes io w).1 ∧
    NoSelfAdded w (createTaskCompletedNotification store task actor io w).1 ∧
    NoSelfAdded w (createCommentNotification store task comment actor io w).1 ∧
    NoSelfAdded w (createProjectJoinedNotification store project newMember io w).1 := by
  refine ⟨?_, ?_, ?_, ?_, ?_, ?_⟩
  · rw [createNotification_eq]
    simp [savedBy, emittedBy, returnedBy, attempted, hr, hs]
  · unfold createTaskAssignedNotification
    split
    · exact NoSelfAdded.refl w
    · split
      · exact NoSelfAdded.refl w
      · exact createNotification_noSelf _ _ _
  · exact mapNotify_noSelf _ _ _ _
  · unfold createTaskCompletedNotification
    dsimp only
    split
    · exact NoSelfAdded.refl w
    · exact mapNotify_noSelf _ _ _ _
  · exact mapNotify_noSelf _ _ _ _
  · unfold createProjectJoinedNotification
    split
    · exact NoSelfAdded.refl w
    · exact createNotification_noSelf _ _ _

/-- Witness for C1: user `u1` acting on a task they created and are assigned to. -/
theorem self_notification_suppressed_witness :
    ((createNotification Store.reliable
        { recipient := .str "u1", sender := .obj "u1" (.str "u1"), type := "task_updated",
          title := "Task Updated", message := "m", io := true } {}).1.saved = [] ∧
      (createNotification Store.reliable
        { recipient := .str "u1", sender := .obj "u1" (.str "u1"), type := "task_updated",
          title := "Task Updated", message := "m", io := true } {}).1.emitted = [] ∧
      (createNotification Store.reliable
        { recipient := .str "u1", sender := .obj "u1" (.str "u1"), type := "task_updated",
          title := "Task Updated", message := "m", io := true } {}).2 = .ok none) :=
  (self_notification_suppressed Store.reliable {} true
    { recipient := .str "u1", sender := .obj "u1" (.str "u1"), type := "task_updated",
      title := "Task Updated", message := "m", io := true } "u1" rfl rfl
    { _id := .str "t1", title := "Ship v1", assignee := .obj "u1" (.str "u1"),
      creator := .obj "u1" (.str "u1"), project := .str "p1" }
    (.str "u1") .nullish none
    { _id := .str "p1", name := "P", owner := .str "u1" } none).1

theorem guardedMembers_idOrSelf {p : ProjectRef} {M : List JsVal}
    (h : p.guardedMembers = some M) : ∃ pid, p.idOrSelf = .ok pid := by
  cases p with
  | nullish => simp [ProjectRef.guardedMembers] at h
  | str s => simp [ProjectRef.guardedMembers] at h
  | obj t i ms => exact ⟨_, rfl⟩

theorem nodup_map_str {R : List String} (hR : R.Nodup) : (R.map JsVal.str).Nodup :=
  List.Nodup.map (fun _ _ h => JsVal.str.inj h) hR

/-- C2 (completion recipients). For a task whose creator exposes an `_id` with string `C`,
whose project carries the member array `M` (strings `ids`), completed by an actor with
string `K`: the operation resolves; it issues one call of the primitive per identity of
`{C} ∪ (ids minus K)`, each of type "task_completed" with the completer as sender (hence one
per identity of `({C} ∪ ids) minus K`); every record it persists is for an identity of
`({C} ∪ ids) minus K`, at most one per identity, and when `save()` does not fail every
such identity gets its record. -/
theorem completion_recipients (store : Store) (w : World) (io : Bool) (task : Task)
    (completedBy : JsVal) (C K : String) (M : List JsVal) (ids : List String)
    (hc : task.creator.guardedId = some C)
    (hp : task.project.guardedMembers = some M)
    (hM : M.map JsVal.toStr = ids.map Except.ok)
    (hk : completedBy.toStr = .ok K) :
    ∃ cs ns es rs,
      createTaskCompletedNotification store task completedBy io w =
        ({ saved := w.saved ++ ns, emitted := w.emitted ++ es, calls := w.calls ++ cs },
          .ok rs) ∧
      (cs.map (fun a => a.recipient)).Nodup ∧
      (∀ a ∈ cs, a.type = "task_completed" ∧ a.sender = completedBy ∧
        ∃ x, a.recipient = .str x ∧ (x = C ∨ (x ∈ ids ∧ x ≠ K))) ∧
      (∀ x, (x = C ∨ x ∈ ids) → x ≠ K → JsVal.str x ∈ cs.map (fun a => a.recipient)) ∧
      (ns.map (fun n => n.recipient)).Nodup ∧
      (∀ n ∈ ns, n.type = "task_completed" ∧ n.sender = completedBy ∧
        ∃ x, n.recipient = .str x ∧ (x = C ∨ x ∈ ids) ∧ x ≠ K) ∧
      ((∀ n, store n ≠ .saveFails) →
        ∀ x, (x = C ∨ x ∈ ids) → x ≠ K → JsVal.str x ∈ ns.map (fun n => n.recipient)) := by
  obtain ⟨pid, hpid⟩ := guardedMembers_idOrSelf hp
  have hs0 : addGuarded [] task.creator = [C] := by simp [addGuarded, hc, setAdd]
  obtain ⟨R, hR, hnd, hmem⟩ :=
    addMembers_spec completedBy K hk M ids [C] hM (List.nodup_singleton C)
  have hmem1 : ∀ x, x ∈ R ↔ (x = C ∨ (x ∈ ids ∧ x ≠ K)) := by
    intro x; rw [hmem x, List.mem_singleton]
  obtain ⟨ns, es, rs, heq, hn1, hn2, hn3, -, -, -⟩ :=
    fanout_spec store
      (fun recipientId =>
        match task.project.idOrSelf with
        | .error e => .error e
        | .ok pid => .ok (completedArgs task completedBy io pid recipientId))
      (completedArgs task completedBy io pid)
      (by intro r; simp [hpid]) completedBy K hk (fun r => ⟨rfl, rfl⟩) R hnd w
  refine ⟨R.map (completedArgs task completedBy io pid), ns, es, rs, ?_, ?_, ?_, ?_, hn1, ?_, ?_⟩
  · unfold createTaskCompletedNotification
    simp only [hp, hs0, hR]
    exact heq
  · rw [List.map_map]
    exact nodup_map_str hnd
  · intro a ha
    obtain ⟨x, hx, rfl⟩ := List.mem_map.mp ha
    exact ⟨rfl, rfl, x, rfl, (hmem1 x).mp hx⟩
  · intro x hx hxk
    rw [List.map_map]
    refine List.mem_map.mpr ⟨x, (hmem1 x).mpr ?_, rfl⟩
    rcases hx with h | h
    · exact Or.inl h
    · exact Or.inr ⟨h, hxk⟩
  · intro n hn
    obtain ⟨x, hx, hxk, rfl⟩ := hn2 n hn
    refine ⟨rfl, rfl, x, rfl, ?_, hxk⟩
    rcases (hmem1 x).mp hx with h | h
    · exact Or.inl h
    · exact Or.inr h.1
  · intro hst x hx hxk
    refine List.mem_map.mpr ⟨_, hn3 hst x ((hmem1 x).mpr ?_) hxk, rfl⟩
    rcases hx with h | h
    · exact Or.inl h
    · exact Or.inr ⟨h, hxk⟩

/-- Witness for C2: the fan-out scenario (creator U1, members U1, U2, U3, completed by
U2); both U1 and U3 get a record. -/
theorem completion_recipients_witness :
    ∃ ns, (createTaskCompletedNotification Store.reliable
        { _id := .str "t1", title := "Ship v1", assignee := .nullish,
          creator := .obj "U1" (.str "U1"),
          project := .obj "p1" (.str "p1") (some [.str "U1", .str "U2", .str "U3"]) }
        (.str "U2") true {}).1.saved = ns ∧
      JsVal.str "U1" ∈ ns.map (fun n => n.recipient) ∧
      JsVal.str "U3" ∈ ns.map (fun n => n.recipient) ∧
      (ns.map (fun n => n.recipient)).Nodup := by
  obtain ⟨cs, ns, es, rs, h, -, -, -, h1, -, h3⟩ :=
    completion_recipients Store.reliable {} true
      { _id := .str "t1", title := "Ship v1", assignee := .nullish,
        creator := .obj "U1" (.str "U1"),
        project := .obj "p1" (.str "p1") (some [.str "U1", .str "U2", .str "U3"]) }
      (.str "U2") "U1" "U2" [.str "U1", .str "U2", .str "U3"] ["U1", "U2", "U3"]
      rfl rfl rfl rfl
  have hst : ∀ n, Store.reliable n ≠ .saveFails := by
    intro n; simp [Store.reliable]
  refine ⟨ns, ?_, h3 hst "U1" (Or.inl rfl) (by decide),
    h3 hst "U3" (Or.inr (by simp)) (by decide), h1⟩
  rw [h]
  simp

/-- The fan-out scenario evaluated: exactly two records, for U1 and U3, two events, and
calls for U1 and U3 only. -/
theorem completion_fanout_scenario :
    (createTaskCompletedNotification Store.reliable
        { _id := .str "t1", title := "Ship v1", assignee := .nullish,
          creator := .obj "U1" (.str "U1"),
          project := .obj "p1" (.str "p1") (some [.str "U1", .str "U2", .str "U3"]) }
        (.str "U2") true {}).1 =
      { saved :=
          [ { recipient := .str "U1", sender := .str "U2", type := "task_completed",
              title := "Task Completed", message := "Task \"Ship v1\" has been completed",
              data := { projectId := .str "p1", taskId := .str "t1" } },
            { recipient := .str "U3", sender := .str "U2", type := "task_completed",
              title := "Task Completed", message := "Task \"Ship v1\" has been completed",
              data := { projectId := .str "p1", taskId := .str "t1" } } ],
        emitted :=
          [ ⟨"user_U1", "newNotification",
              { recipient := .str "U1", sender := .str "U2", type := "task_completed",
                title := "Task Completed", message := "Task \"Ship v1\" has been completed",
                data := { projectId := .str "p1", taskId := .str "t1" } }⟩,
            ⟨"user_U3", "newNotification",
              { recipient := .str "U3", sender := .str "U2", type := "task_completed",
                title := "Task Completed", message := "Task \"Ship v1\" has been completed",
                data := { projectId := .str "p1", taskId := .str "t1" } }⟩ ],
        calls :=
          [ { recipient := .str "U1", sender := .str "U2", type := "task_completed",
              title := "Task Completed", message := "Task \"Ship v1\" has been completed",
              data := { projectId := .str "p1", taskId := .str "t1" }, io := true },
            { recipient := .str "U3", sender := .str "U2", type := "task_completed",
              title := "Task Completed", message := "Task \"Ship v1\" has been completed",
              data := { projectId := .str "p1", taskId := .str "t1" }, io := true } ] } := by
  decide

/-! ### Update and comment -/

/-- The recipient set built from assignee and creator. -/
theorem recipients_assignee_creator (assignee creator : JsVal) (A C : String)
    (ha : assignee.guardedId = some A) (hc : creator.guardedId = some C) :
    (addGuarded (addGuarded [] assignee) creator).Nodup ∧
    ∀ x, x ∈ addGuarded (addGuarded [] assignee) creator ↔ (x = A ∨ x = C) := by
  refine ⟨nodup_addGuarded _ _ (nodup_addGuarded _ _ List.nodup_nil), ?_⟩
  intro x
  rw [mem_addGuarded, mem_addGuarded, ha, hc]
  simp only [List.not_mem_nil, false_or, Option.some.injEq]
  constructor
  · rintro (h | h)
    · exact Or.inl h.symm
    · exact Or.inr h.symm
  · rintro (h | h)
    · exact Or.inl h.symm
    · exact Or.inr h.symm

/-- C3 (update recipients). For a task whose assignee and creator expose `_id`s with
strings `A` and `C`, whose project reference is present, updated by an actor with string
`U`: the operation resolves; every record it persists has type "task_updated", sender
the updater and a recipient in `{A, C} minus U`, at most one per identity; and when
`save()` does not fail each identity of `{A, C} minus U` gets its record. -/
theorem update_recipients (store : Store) (w : World) (io : Bool) (task : Task)
    (updatedBy changes pid : JsVal) (A C U : String)
    (ha : task.assignee.guardedId = some A)
    (hc : task.creator.guardedId = some C)
    (hp : task.project.idOrSelf = .ok pid)
    (hu : updatedBy.toStr = .ok U) :
    ∃ cs ns es rs,
      createTaskUpdatedNotification store task updatedBy changes io w =
        ({ saved := w.saved ++ ns, emitted := w.emitted ++ es, calls := w.calls ++ cs },
          .ok rs) ∧
      (ns.map (fun n => n.recipient)).Nodup ∧
      (∀ n ∈ ns, n.type = "task_updated" ∧ n.sender = updatedBy ∧
        ∃ x, n.recipient = .str x ∧ (x = A ∨ x = C) ∧ x ≠ U) ∧
      ((∀ n, store n ≠ .saveFails) →
        ∀ x, (x = A ∨ x = C) → x ≠ U → JsVal.str x ∈ ns.map (fun n => n.recipient)) := by
  obtain ⟨hnd, hmem⟩ := recipients_assignee_creator task.assignee task.creator A C ha hc
  obtain ⟨ns, es, rs, heq, hn1, hn2, hn3, -, -, -⟩ :=
    fanout_spec store
      (fun recipientId =>
        match task.project.idOrSelf with
        | .error e => .error e
        | .ok pid => .ok (updatedArgs task updatedBy changes io pid recipientId))
      (updatedArgs task updatedBy changes io pid)
      (by intro r; simp [hp]) updatedBy U hu (fun r => ⟨rfl, rfl⟩) _ hnd w
  refine ⟨_, ns, es, rs, heq, hn1, ?_, ?_⟩
  · intro n hn
    obtain ⟨x, hx, hxu, rfl⟩ := hn2 n hn
    exact ⟨rfl, rfl, x, rfl, (hmem x).mp hx, hxu⟩
  · intro hst x hx hxu
    exact List.mem_map.mpr ⟨_, hn3 hst x ((hmem x).mpr hx) hxu, rfl⟩

/-- Witness for C3: assignee U2, creator U1, updated by U1; U2 gets a record. -/
theorem update_recipients_witness :
    ∃ ns, (createTaskUpdatedNotification Store.reliable
        { _id := .str "t1", title := "Ship v1", assignee := .obj "U2" (.str "U2"),
          creator := .obj "U1" (.str "U1"), project := .str "p1" }
        (.str "U1") .nullish true {}).1.saved = ns ∧
      JsVal.str "U2" ∈ ns.map (fun n => n.recipient) ∧
      ∀ n ∈ ns, n.recipient ≠ .str "U1" := by
  obtain ⟨cs, ns, es, rs, h, -, h2, h3⟩ :=
    update_recipients Store.reliable {} true
      { _id := .str "t1", title := "Ship v1", assignee := .obj "U2" (.str "U2"),
        creator := .obj "U1" (.str "U1"), project := .str "p1" }
      (.str "U1") .nullish (.str "p1") "U2" "U1" "U1" rfl rfl rfl rfl
  refine ⟨ns, by rw [h]; simp, h3 (by intro n; simp [Store.reliable]) "U2" (Or.inl rfl)
    (by decide), ?_⟩
  intro n hn hrec
  obtain ⟨-, -, x, hx, -, hxu⟩ := h2 n hn
  rw [hx] at hrec
  exact hxu (JsVal.str.inj hrec)

/-- C4 (recipient-set dedup). When creator and assignee expose the same identity `X` and
the updater is someone else, the operation makes exactly one call of the primitive, for
recipient `X` with the updater as sender, and persists exactly one record (none only if
`save()` fails). -/
theorem update_dedup (store : Store) (w : World) (io : Bool) (task : Task)
    (updatedBy changes pid : JsVal) (X U : String)
    (ha : task.assignee.guardedId = some X)
    (hc : task.creator.guardedId = some X)
    (hp : task.project.idOrSelf = .ok pid)
    (hu : updatedBy.toStr = .ok U) (hne : U ≠ X) :
    (createTaskUpdatedNotification store task updatedBy changes io w).1.calls =
      w.calls ++ [updatedArgs task updatedBy changes io pid X] ∧
    (updatedArgs task updatedBy changes io pid X).recipient = .str X ∧
    (updatedArgs task updatedBy changes io pid X).sender = updatedBy ∧
    (createTaskUpdatedNotification store task updatedBy changes io w).1.saved =
      w.saved ++
        (if store (newNotification (updatedArgs task updatedBy changes io pid X)) = .saveFails
          then [] else [newNotification (updatedArgs task updatedBy changes io pid X)]) := by
  have hR : addGuarded (addGuarded [] task.assignee) task.creator = [X] := by
    simp [addGuarded, ha, hc, setAdd]
  have hXU : X ≠ U := fun h => hne h.symm
  unfold createTaskUpdatedNotification
  simp only [hR]
  rw [mapNotify_ok store _ (updatedArgs task updatedBy changes io pid) (by intro r; simp [hp])]
  refine ⟨by simp, rfl, rfl, ?_⟩
  simp only [List.flatMap_cons, List.flatMap_nil, List.append_nil]
  rw [savedBy_str store _ X U rfl hu]
  by_cases hst : store (newNotification (updatedArgs task updatedBy changes io pid X)) = .saveFails
  · simp [hst]
  · simp [hst, hXU]

/-- Witness for C4: creator and assignee U1, updated by U2: one record. -/
theorem update_dedup_witness :
    (createTaskUpdatedNotification Store.reliable
        { _id := .str "t1", title := "Ship v1", assignee := .obj "U1" (.str "U1"),
          creator := .obj "U1" (.str "U1"), project := .str "p1" }
        (.str "U2") .nullish true {}).1.saved =
      [ { recipient := .str "U1", sender := .str "U2", type := "task_updated",
          title := "Task Updated", message := "Task \"Ship v1\" has been updated",
          data := { projectId := .str "p1", taskId := .str "t1" } } ] :=
  (update_dedup Store.reliable {} true
    { _id := .str "t1", title := "Ship v1", assignee := .obj "U1" (.str "U1"),
      creator := .obj "U1" (.str "U1"), project := .str "p1" }
    (.str "U2") .nullish (.str "p1") "U1" "U2" rfl rfl rfl rfl (by decide)).2.2.2

/-- C5 (comment recipients). For a task whose assignee and creator expose `_id`s with
strings `A` and `C`, whose project reference is present, commented on by an actor with
string `K`: the primitive is called once for each identity of `{A, C}`, the commenter
included when it is one of them, each call of type "task_commented" with the commenter as
sender and the comment id in its data; the records persisted are for identities of
`{A, C} minus K`, at most one each, and when `save()` does not fail each such identity
gets its record. -/
theorem comment_recipients (store : Store) (w : World) (io : Bool) (task : Task)
    (comment : Comment) (commentedBy pid : JsVal) (A C K : String)
    (ha : task.assignee.guardedId = some A)
    (hc : task.creator.guardedId = some C)
    (hp : task.project.idOrSelf = .ok pid)
    (hk : commentedBy.toStr = .ok K) :
    ∃ cs ns es rs,
      createCommentNotification store task (some comment) commentedBy io w =
        ({ saved := w.saved ++ ns, emitted := w.emitted ++ es, calls := w.calls ++ cs },
          .ok rs) ∧
      (cs.map (fun a => a.recipient)).Nodup ∧
      (∀ a ∈ cs, a.type = "task_commented" ∧ a.sender = commentedBy ∧
        a.data.commentId = comment._id ∧ ∃ x, a.recipient = .str x ∧ (x = A ∨ x = C)) ∧
      (∀ x, (x = A ∨ x = C) → JsVal.str x ∈ cs.map (fun a => a.recipient)) ∧
      (ns.map (fun n => n.recipient)).Nodup ∧
      (∀ n ∈ ns, n.type = "task_commented" ∧ n.sender = commentedBy ∧
        n.data.commentId = comment._id ∧
        ∃ x, n.recipient = .str x ∧ (x = A ∨ x = C) ∧ x ≠ K) ∧
      ((∀ n, store n ≠ .saveFails) →
        ∀ x, (x = A ∨ x = C) → x ≠ K → JsVal.str x ∈ ns.map (fun n => n.recipient)) := by
  obtain ⟨hnd, hmem⟩ := recipients_assignee_creator task.assignee task.creator A C ha hc
  obtain ⟨ns, es, rs, heq, hn1, hn2, hn3, -, -, -⟩ :=
    fanout_spec store
      (fun recipientId =>
        match task.project.idOrSelf with
        | .error e => .error e
        | .ok pid =>
          match some comment with
          | none => .error .typeError
          | some c => .ok (commentArgs task c commentedBy io pid recipientId))
      (commentArgs task comment commentedBy io pid)
      (by intro r; simp [hp]) commentedBy K hk (fun r => ⟨rfl, rfl⟩) _ hnd w
  refine ⟨_, ns, es, rs, heq, ?_, ?_, ?_, hn1, ?_, ?_⟩
  · rw [List.map_map]
    exact nodup_map_str hnd
  · intro a ha1
    obtain ⟨x, hx, rfl⟩ := List.mem_map.mp ha1
    exact ⟨rfl, rfl, rfl, x, rfl, (hmem x).mp hx⟩
  · intro x hx
    rw [List.map_map]
    exact List.mem_map.mpr ⟨x, (hmem x).mpr hx, rfl⟩
  · intro n hn
    obtain ⟨x, hx, hxk, rfl⟩ := hn2 n hn
    exact ⟨rfl, rfl, rfl, x, rfl, (hmem x).mp hx, hxk⟩
  · intro hst x hx hxk
    exact List.mem_map.mpr ⟨_, hn3 hst x ((hmem x).mpr hx) hxk, rfl⟩

/-- Witness for C5: the assignee U2 comments on a task created by U1: the primitive is
called for U2 as well, and only U1 gets a record. -/
theorem comment_recipients_witness :
    ∃ cs ns, (createCommentNotification Store.reliable
        { _id := .str "t1", title := "Ship v1", assignee := .obj "U2" (.str "U2"),
          creator := .obj "U1" (.str "U1"), project := .str "p1" }
        (some { _id := .str "c1" }) (.str "U2") true {}).1.calls = cs ∧
      (createCommentNotification Store.reliable
        { _id := .str "t1", title := "Ship v1", assignee := .obj "U2" (.str "U2"),
          creator := .obj "U1" (.str "U1"), project := .str "p1" }
        (some { _id := .str "c1" }) (.str "U2") true {}).1.saved = ns ∧
      JsVal.str "U2" ∈ cs.map (fun a => a.recipient) ∧
      JsVal.str "U1" ∈ ns.map (fun n => n.recipient) ∧
      ∀ n ∈ ns, n.recipient ≠ .str "U2" := by
  obtain ⟨cs, ns, es, rs, h, -, -, h1, -, h2, h3⟩ :=
    comment_recipients Store.reliable {} true
      { _id := .str "t1", title := "Ship v1", assignee := .obj "U2" (.str "U2"),
        creator := .obj "U1" (.str "U1"), project := .str "p1" }
      { _id := .str "c1" } (.str "U2") (.str "p1") "U2" "U1" "U2" rfl rfl rfl rfl
  refine ⟨cs, ns, by rw [h]; simp, by rw [h]; simp, h1 "U2" (Or.inl rfl),
    h3 (by intro n; simp [Store.reliable]) "U1" (Or.inr rfl) (by decide), ?_⟩
  intro n hn hrec
  obtain ⟨-, -, -, x, hx, -, hxk⟩ := h2 n hn
  rw [hx] at hrec
  exact hxk (JsVal.str.inj hrec)

/-! ### Assignment -/

/-- The argument object built by `createTaskAssignedNotification`. -/
theorem assigned_calls (store : Store) (w : World) (io : Bool) (task : Task)
    (assignedBy pid : JsVal) (ht : task.assignee.truthy = true)
    (hp : task.project.idOrSelf = .ok pid) :
    createTaskAssignedNotification store task assignedBy io w =
      createNotification store
        { recipient := task.assignee.idOrSelf, sender := assignedBy, type := "task_assigned",
          title := "New Task Assigned",
          message := "You have been assigned to task: \"" ++ task.title ++ "\"",
          data := { projectId := pid, taskId := task._id }, io := io } w := by
  unfold createTaskAssignedNotification
  simp [ht, hp]

/-- C6 (assignment). Without an assignee the operation does nothing (state unchanged, no
call). With an assignee and a project reference it makes exactly one call of the
primitive, with recipient the assignee's `_id` when it is an object exposing one and the
assignee itself when it is a bare id, sender the assigner and type "task_assigned"; and
when the recipient string differs from the assigner's and the write succeeds, exactly
that one record is persisted and returned. -/
theorem assignment_single_recipient (store : Store) (w : World) (io : Bool) (task : Task)
    (assignedBy : JsVal) :
    (task.assignee.truthy = false →
      createTaskAssignedNotification store task assignedBy io w = (w, .ok none)) ∧
    (task.assignee.truthy = true → ∀ pid, task.project.idOrSelf = .ok pid →
      ∃ a, (createTaskAssignedNotification store task assignedBy io w).1.calls =
          w.calls ++ [a] ∧
        a.sender = assignedBy ∧ a.type = "task_assigned" ∧
        a.recipient = task.assignee.idOrSelf ∧
        (∀ t i, task.assignee = .obj t i → i.truthy = true → a.recipient = i) ∧
        (∀ s, task.assignee = .str s → a.recipient = .str s) ∧
        (∀ r s, a.recipient.toStr = .ok r → assignedBy.toStr = .ok s → r ≠ s →
          store (newNotification a) = .ok →
          (createTaskAssignedNotification store task assignedBy io w).1.saved =
            w.saved ++ [newNotification a] ∧
          (createTaskAssignedNotification store task assignedBy io w).2 =
            .ok (some (newNotification a)))) := by
  constructor
  · intro ht
    unfold createTaskAssignedNotification
    simp [ht]
  · intro ht pid hp
    rw [assigned_calls store w io task assignedBy pid ht hp, createNotification_eq]
    refine ⟨_, rfl, rfl, rfl, rfl, ?_, ?_, ?_⟩
    · intro t i hti hi
      simp [hti, JsVal.idOrSelf, hi]
    · intro s hs
      simp [hs, JsVal.idOrSelf]
    · intro r s hr hs hrs hst
      have hs1 : (NotifyArgs.mk task.assignee.idOrSelf assignedBy "task_assigned"
          "New Task Assigned"
          ("You have been assigned to task: \"" ++ task.title ++ "\"")
          { projectId := pid, taskId := task._id } io).sender.toStr = .ok s := hs
      simp only [savedBy, returnedBy, attempted, hr, hs1]
      simp [hrs, hst]

/-- Witness for C6: the assignment scenario (task "Ship v1", assignee U2, assigned by
U1): one record with recipient U2, sender U1 and type "task_assigned". -/
theorem assignment_single_recipient_witness :
    ∃ a, (createTaskAssignedNotification Store.reliable
        { _id := .str "t1", title := "Ship v1", assignee := .obj "U2" (.str "U2"),
          creator := .nullish, project := .str "p1" } (.str "U1") true {}).1.calls = [a] ∧
      a.recipient = .str "U2" ∧ a.sender = .str "U1" ∧ a.type = "task_assigned" ∧
      (createTaskAssignedNotification Store.reliable
        { _id := .str "t1", title := "Ship v1", assignee := .obj "U2" (.str "U2"),
          creator := .nullish, project := .str "p1" } (.str "U1") true {}).1.saved =
        [newNotification a] := by
  obtain ⟨a, h1, h2, h3, h4, -, -, h5⟩ :=
    (assignment_single_recipient Store.reliable {} true
      { _id := .str "t1", title := "Ship v1", assignee := .obj "U2" (.str "U2"),
        creator := .nullish, project := .str "p1" } (.str "U1")).2 rfl (.str "p1") rfl
  refine ⟨a, by simpa using h1, h4, h2, h3, ?_⟩
  have := (h5 "U2" "U1" (by rw [h4]; rfl) rfl (by decide) rfl).1
  simpa using this

/-! ### The primitive: delivery and failure -/

/-- C7 (live delivery). When recipient and sender have different `toString()`s, the write
fully succeeds and a socket server is supplied, `createNotification` persists the record,
emits exactly one event, named "newNotification", carrying that record and addressed to
the room "user_" followed by the recipient string, and resolves to that record. -/
theorem live_delivery (store : Store) (a : NotifyArgs) (w : World) (r s : String)
    (hr : a.recipient.toStr = .ok r) (hs : a.sender.toStr = .ok s) (hrs : r ≠ s)
    (hst : store (newNotification a) = .ok) (hio : a.io = true) :
    createNotification store a w =
      ({ saved := w.saved ++ [newNotification a],
         emitted := w.emitted ++ [⟨"user_" ++ r, "newNotification", newNotification a⟩],
         calls := w.calls ++ [a] }, .ok (some (newNotification a))) := by
  rw [createNotification_eq]
  simp [savedBy, emittedBy, returnedBy, attempted, hr, hs, hrs, hst, hio]

/-- Witness for C7: U1 notifies U2. -/
theorem live_delivery_witness :
    (createNotification Store.reliable
        { recipient := .obj "U2" (.str "U2"), sender := .str "U1", type := "task_assigned",
          title := "New Task Assigned", message := "m", io := true } {}).1.emitted =
      [⟨"user_U2", "newNotification",
        { recipient := .obj "U2" (.str "U2"), sender := .str "U1", type := "task_assigned",
          title := "New Task Assigned", message := "m", data := {} }⟩] :=
  congrArg (fun p => p.1.emitted)
    (live_delivery Store.reliable
      { recipient := .obj "U2" (.str "U2"), sender := .str "U1", type := "task_assigned",
        title := "New Task Assigned", message := "m", io := true } {} "U2" "U1"
      rfl rfl (by decide) rfl rfl)

/-- C8 (failures are swallowed by the primitive). For every argument object, store and
state, `createNotification` resolves (it never rejects); and whenever its `try` block
throws (missing recipient or sender, `save()` failing, a `populate()` failing) it
resolves to `undefined` and emits no socket event. -/
theorem createNotification_never_rejects (store : Store) (a : NotifyArgs) (w : World) :
    (∃ res, (createNotification store a w).2 = .ok res) ∧
    (∀ e, (createNotificationTry store a { w with calls := w.calls ++ [a] }).2 = .error e →
      (createNotification store a w).2 = .ok none ∧
      (createNotification store a w).1.emitted = w.emitted) ∧
    (a.recipient = .nullish ∨ a.sender = .nullish ∨
        ((∃ r s, a.recipient.toStr = .ok r ∧ a.sender.toStr = .ok s ∧ r ≠ s) ∧
          store (newNotification a) ≠ .ok) →
      ∃ e, (createNotificationTry store a { w with calls := w.calls ++ [a] }).2 = .error e) := by
  refine ⟨⟨_, congrArg Prod.snd (createNotification_eq store a w)⟩, ?_, ?_⟩
  · intro e he
    unfold createNotification
    unfold createNotificationTry at he ⊢
    cases hr : a.recipient.toStr with
    | error e1 => simp
    | ok r =>
      cases hs : a.sender.toStr with
      | error e1 => simp
      | ok s =>
        by_cases hrs : r = s
        · simp [hr, hs, hrs] at he
        · cases hst : store (newNotification a) <;> simp [hr, hs, hrs, hst] at he ⊢
  · rintro (h | h | ⟨⟨r, s, hr, hs, hrs⟩, hst⟩)
    · exact ⟨.typeError, by simp [createNotificationTry, h, JsVal.toStr]⟩
    · unfold createNotificationTry
      cases hr : a.recipient.toStr with
      | error e1 => exact ⟨e1, rfl⟩
      | ok r => exact ⟨.typeError, by simp [h, JsVal.toStr]⟩
    · unfold createNotificationTry
      refine ⟨.storeError, ?_⟩
      cases hst1 : store (newNotification a) <;> simp [hr, hs, hrs, hst1] at hst ⊢

/-- Witness for C8: a missing sender, a failing `save()` and a failing `populate()` all
leave the primitive resolving to `undefined` with nothing emitted. -/
theorem createNotification_never_rejects_witness :
    (createNotification Store.reliable
      { recipient := .str "U2", sender := .nullish, type := "t", title := "t", message := "m",
        io := true } {}).2 = .ok none ∧
    (createNotification (fun _ => .saveFails)
      { recipient := .str "U2", sender := .str "U1", type := "t", title := "t", message := "m",
        io := true } {}).2 = .ok none ∧
    (createNotification (fun _ => .populateTaskFails)
      { recipient := .str "U2", sender := .str "U1", type := "t", title := "t", message := "m",
        io := true } {}).1.emitted = [] :=
  ⟨((createNotification_never_rejects Store.reliable
      { recipient := .str "U2", sender := .nullish, type := "t", title := "t", message := "m",
        io := true } {}).2.1 .typeError rfl).1,
   ((createNotification_never_rejects (fun _ => .saveFails)
      { recipient := .str "U2", sender := .str "U1", type := "t", title := "t", message := "m",
        io := true } {}).2.1 .storeError rfl).1,
   ((createNotification_never_rejects (fun _ => .populateTaskFails)
      { recipient := .str "U2", sender := .str "U1", type := "t", title := "t", message := "m",
        io := true } {}).2.1 .storeError rfl).2⟩

/-- C9 (a failure of the notification logic does reach the caller). The derived
operations evaluate `task.project._id`, `comment._id` and `newMember._id` outside any
`try`: completing a task whose project reference is missing rejects with a TypeError,
although the same function guards `task.project` when it reads the members; so do
assignment, update and comment on such a task, comment with a missing comment, and
project-joined with a missing new member. -/
theorem derived_operations_reject :
    (createTaskCompletedNotification Store.reliable
      { _id := .str "t1", title := "Ship v1", assignee := .nullish,
        creator := .obj "U1" (.str "U1"), project := .nullish }
      (.str "U2") true {}).2 = .error .typeError ∧
    (createTaskAssignedNotification Store.reliable
      { _id := .str "t1", title := "Ship v1", assignee := .obj "U2" (.str "U2"),
        creator := .obj "U1" (.str "U1"), project := .nullish }
      (.str "U1") true {}).2 = .error .typeError ∧
    (createTaskUpdatedNotification Store.reliable
      { _id := .str "t1", title := "Ship v1", assignee := .obj "U2" (.str "U2"),
        creator := .obj "U1" (.str "U1"), project := .nullish }
      (.str "U1") .nullish true {}).2 = .error .typeError ∧
    (createCommentNotification Store.reliable
      { _id := .str "t1", title := "Ship v1", assignee := .obj "U2" (.str "U2"),
        creator := .obj "U1" (.str "U1"), project := .str "p1" }
      none (.str "U1") true {}).2 = .error .typeError ∧
    (createProjectJoinedNotification Store.reliable
      { _id := .str "p1", name := "P", owner := .str "U1" } none true {}).2 =
      .error .typeError :=
  ⟨rfl, rfl, rfl, rfl, rfl⟩

end NotificationService

namespace Server

/-- C10 (handshake outcome). The middleware lets the connection proceed exactly when a
non-empty token is present, `jwt.verify` accepts it and the lookup of its `userId` yields
a user; a missing token and a token that fails verification are refused with
"Authentication error"; a verified token whose user does not exist is refused with the
different message "User not found"; on acceptance the socket carries that user's id and
username. -/
theorem handshake_outcome (env : AuthEnv) (socket : Socket) :
    ((authMiddleware env socket).2 = .proceed ↔
      ∃ token uid u, socket.token = some token ∧ token ≠ "" ∧
        env.verify token = .ok uid ∧ env.findById uid = .ok (some u)) ∧
    (socket.token = none ∨ socket.token = some "" →
      authMiddleware env socket = (socket, .refuse "Authentication error")) ∧
    (∀ token e, socket.token = some token → env.verify token = .error e →
      authMiddleware env socket = (socket, .refuse "Authentication error")) ∧
    (∀ token uid, socket.token = some token → token ≠ "" → env.verify token = .ok uid →
      env.findById uid = .ok none →
      authMiddleware env socket = (socket, .refuse "User not found")) ∧
    (∀ token uid u, socket.token = some token → token ≠ "" → env.verify token = .ok uid →
      env.findById uid = .ok (some u) →
      authMiddleware env socket =
        ({ socket with userId := some u._id, username := some u.username, user := some u },
          .proceed)) ∧
    Next.refuse "User not found" ≠ Next.refuse "Authentication error" := by
  refine ⟨?_, ?_, ?_, ?_, ?_, by decide⟩
  · unfold authMiddleware authMiddlewareTry
    cases ht : socket.token with
    | none => simp
    | some token =>
      by_cases he : token = ""
      · simp [he]
      · cases hv : env.verify token with
        | error e => simp [he, hv]
        | ok uid =>
          cases hf : env.findById uid with
          | error e => simp [he, hv, hf]
          | ok o =>
            cases o with
            | none => simp [he, hv, hf]
            | some u => simp [he, hv, hf]
  · rintro (h | h) <;> simp [authMiddleware, authMiddlewareTry, h]
  · intro token e ht hv
    unfold authMiddleware authMiddlewareTry
    by_cases he : token = "" <;> simp [ht, he, hv]
  · intro token uid ht he hv hf
    simp [authMiddleware, authMiddlewareTry, ht, he, hv, hf]
  · intro token uid u ht he hv hf
    simp [authMiddleware, authMiddlewareTry, ht, he, hv, hf]

/-- Witness for C10: a store with the single user u1 and a verifier accepting the tokens
"good" (subject u1) and "stale" (subject u9): "good" is accepted, no token and "bad" are
refused as unauthenticated, "stale" is refused as user not found. -/
theorem handshake_outcome_witness :
    authMiddleware
        { verify := fun t =>
            if t = "good" then .ok (.str "u1")
            else if t = "stale" then .ok (.str "u9") else .error .tokenError,
          findById := fun v => if v = .str "u1" then .ok (some ⟨"u1", "alice"⟩) else .ok none }
        { id := "s1", token := some "good" } =
      ({ id := "s1", token := some "good", userId := some "u1", username := some "alice",
         user := some ⟨"u1", "alice"⟩ }, .proceed) ∧
    authMiddleware
        { verify := fun t =>
            if t = "good" then .ok (.str "u1")
            else if t = "stale" then .ok (.str "u9") else .error .tokenError,
          findById := fun v => if v = .str "u1" then .ok (some ⟨"u1", "alice"⟩) else .ok none }
        { id := "s1", token := none } =
      ({ id := "s1", token := none }, .refuse "Authentication error") ∧
    authMiddleware
        { verify := fun t =>
            if t = "good" then .ok (.str "u1")
            else if t = "stale" then .ok (.str "u9") else .error .tokenError,
          findById := fun v => if v = .str "u1" then .ok (some ⟨"u1", "alice"⟩) else .ok none }
        { id := "s1", token := some "bad" } =
      ({ id := "s1", token := some "bad" }, .refuse "Authentication error") ∧
    authMiddleware
        { verify := fun t =>
            if t = "good" then .ok (.str "u1")
            else if t = "stale" then .ok (.str "u9") else .error .tokenError,
          findById := fun v => if v = .str "u1" then .ok (some ⟨"u1", "alice"⟩) else .ok none }
        { id := "s1", token := some "stale" } =
      ({ id := "s1", token := some "stale" }, .refuse "User not found") :=
  ⟨(handshake_outcome _ { id := "s1", token := some "good" }).2.2.2.2.1
      "good" (.str "u1") ⟨"u1", "alice"⟩ rfl (by decide) rfl rfl,
   (handshake_outcome _ { id := "s1", token := none }).2.1 (Or.inl rfl),
   (handshake_outcome _ { id := "s1", token := some "bad" }).2.2.1
      "bad" .tokenError rfl rfl,
   (handshake_outcome _ { id := "s1", token := some "stale" }).2.2.2.1
      "stale" (.str "u9") rfl (by decide) rfl rfl⟩

/-! ### Bookkeeping lemmas for the server state -/

theorem findSocket_some {st : ServerState} {x : String} {s : Session}
    (h : st.findSocket x = some s) : s ∈ st.sockets ∧ s.id = x := by
  unfold ServerState.findSocket at h
  refine ⟨List.mem_of_find?_eq_some h, ?_⟩
  have := List.find?_some h
  simpa using this

theorem findSocket_of_mem {st : ServerState} (hn : (st.sockets.map (fun s => s.id)).Nodup)
    {s : Session} (hs : s ∈ st.sockets) : st.findSocket s.id = some s := by
  unfold ServerState.findSocket
  cases hf : st.sockets.find? (fun t => decide (t.id = s.id)) with
  | none =>
    have := List.find?_eq_none.mp hf s hs
    simp at this
  | some t =>
    have ht := List.mem_of_find?_eq_some hf
    have hid : t.id = s.id := by simpa using List.find?_some hf
    rw [List.inj_on_of_nodup_map hn ht hs hid]

theorem project_ne_user (p i : String) : "project_" ++ p ≠ "user_" ++ i := by
  intro h
  have h1 := congrArg String.data h
  simp only [String.data_append] at h1
  simp only [List.cons_append, List.cons.injEq] at h1
  exact absurd h1.1 (by decide)

theorem user_room_inj (i j : String) (h : "user_" ++ i = "user_" ++ j) : i = j := by
  have h1 := congrArg String.data h
  simp only [String.data_append] at h1
  exact String.ext (List.append_cancel_left h1)

theorem mem_roomGet {st : ServerState} {room : String} {ids : List String}
    (h : st.roomGet room = some ids) (x : String) :
    x ∈ ids ↔ (room, x) ∈ st.memberships := by
  unfold ServerState.roomGet at h
  have hids : ids = (st.memberships.filter (fun m => decide (m.1 = room))).map (fun m => m.2) := by
    cases hl : (st.memberships.filter (fun m => decide (m.1 = room))).map (fun m => m.2) with
    | nil => simp [hl] at h
    | cons a l => simp [hl] at h; exact h.symm
  subst hids
  simp only [List.mem_map, List.mem_filter, decide_eq_true_eq]
  constructor
  · rintro ⟨⟨r, y⟩, ⟨hm, hr⟩, hy⟩
    simp only at hr hy
    subst hr hy
    exact hm
  · intro hm
    exact ⟨(room, x), ⟨hm, rfl⟩, rfl⟩

theorem roomGet_none {st : ServerState} {room : String} (h : st.roomGet room = none)
    (x : String) : (room, x) ∉ st.memberships := by
  intro hm
  unfold ServerState.roomGet at h
  cases hl : (st.memberships.filter (fun m => decide (m.1 = room))).map (fun m => m.2) with
  | nil =>
    have : x ∈ (st.memberships.filter (fun m => decide (m.1 = room))).map (fun m => m.2) :=
      List.mem_map.mpr ⟨(room, x), List.mem_filter.mpr ⟨hm, by simp⟩, rfl⟩
    rw [hl] at this
    simp at this
  | cons a l => simp [hl] at h

theorem roomGet_nodup {st : ServerState} (hn : st.memberships.Nodup) {room : String}
    {ids : List String} (h : st.roomGet room = some ids) : ids.Nodup := by
  unfold ServerState.roomGet at h
  have hids : ids = (st.memberships.filter (fun m => decide (m.1 = room))).map (fun m => m.2) := by
    cases hl : (st.memberships.filter (fun m => decide (m.1 = room))).map (fun m => m.2) with
    | nil => simp [hl] at h
    | cons a l => simp [hl] at h; exact h.symm
  subst hids
  refine List.Nodup.map_on ?_ (List.Nodup.filter _ hn)
  intro a ha b hb hab
  simp only [List.mem_filter, decide_eq_true_eq] at ha hb
  exact Prod.ext (ha.2.trans hb.2.symm) hab

/-! ### The bookkeeping stays consistent -/

theorem WF.of_same {st st1 : ServerState} (h : WF st) (hs : st1.sockets = st.sockets)
    (hm : st1.memberships = st.memberships) : WF st1 := by
  constructor
  · rw [hs]; exact h.ids_nodup
  · rw [hs, hm]; exact h.members_live
  · rw [hm]; exact h.members_nodup
  · rw [hs, hm]; exact h.personal

theorem WF.filter_members {st : ServerState} (h : WF st) (p : String × String → Bool) :
    WF { st with memberships := st.memberships.filter p } := by
  constructor
  · exact h.ids_nodup
  · intro m hm
    exact h.members_live m (List.mem_filter.mp hm).1
  · exact List.Nodup.filter _ h.members_nodup
  · intro m hm
    exact h.personal m (List.mem_filter.mp hm).1

theorem WF.join {st : ServerState} (h : WF st) {s : Session} (hs : s ∈ st.sockets)
    (room : String) (hp : ∀ I, room = "user_" ++ I → s.userId = I) :
    WF (st.join s.id room) := by
  unfold ServerState.join
  split
  · exact h
  · rename_i hnew
    constructor
    · exact h.ids_nodup
    · intro m hm
      rcases List.mem_append.mp hm with h1 | h1
      · exact h.members_live m h1
      · rw [List.mem_singleton] at h1
        subst h1
        exact ⟨s, hs, rfl⟩
    · refine List.Nodup.append h.members_nodup (List.nodup_singleton _) ?_
      intro m hm hm1
      rw [List.mem_singleton] at hm1
      subst hm1
      exact hnew hm
    · intro m hm I hI t ht hid
      rcases List.mem_append.mp hm with h1 | h1
      · exact h.personal m h1 I hI t ht hid
      · rw [List.mem_singleton] at h1
        subst h1
        have : t = s := List.inj_on_of_nodup_map h.ids_nodup ht hs hid
        subst this
        exact hp I hI

theorem WF.cleanup {st : ServerState} (h : WF st) (x : String) : WF (st.cleanup x) := by
  unfold ServerState.cleanup
  constructor
  · exact List.Nodup.sublist (List.Sublist.map _ (List.filter_sublist _)) h.ids_nodup
  · intro m hm
    simp only [List.mem_filter, decide_eq_true_eq] at hm
    obtain ⟨t, ht, hid⟩ := h.members_live m hm.1
    refine ⟨t, ?_, hid⟩
    simp only [List.mem_filter, decide_eq_true_eq]
    exact ⟨ht, by rw [hid]; exact hm.2⟩
  · exact List.Nodup.filter _ h.members_nodup
  · intro m hm I hI t ht hid
    simp only [List.mem_filter, decide_eq_true_eq] at hm ht
    exact h.personal m hm.1 I hI t ht.1 hid

theorem WF.addSocket {st : ServerState} (h : WF st) (s : Session)
    (hfresh : ∀ t ∈ st.sockets, t.id ≠ s.id) : WF { st with sockets := st.sockets ++ [s] } := by
  constructor
  · simp only [List.map_append, List.map_cons, List.map_nil]
    refine List.Nodup.append h.ids_nodup (List.nodup_singleton _) ?_
    intro x hx hx1
    rw [List.mem_singleton] at hx1
    subst hx1
    obtain ⟨t, ht, hid⟩ := List.mem_map.mp hx
    exact hfresh t ht hid
  · intro m hm
    obtain ⟨t, ht, hid⟩ := h.members_live m hm
    exact ⟨t, List.mem_append_left _ ht, hid⟩
  · exact h.members_nodup
  · intro m hm I hI t ht hid
    rcases List.mem_append.mp ht with h1 | h1
    · exact h.personal m hm I hI t h1 hid
    · rw [List.mem_singleton] at h1
      subst h1
      obtain ⟨u, hu, huid⟩ := h.members_live m hm
      exact absurd (huid.trans hid.symm) (hfresh u hu)

theorem handshake_id {env : AuthEnv} {socket : Socket} {s : Session}
    (h : handshake env socket = some s) : s.id = socket.id := by
  unfold handshake authMiddleware authMiddlewareTry at h
  cases ht : socket.token with
  | none => simp [ht] at h
  | some token =>
    by_cases he : token = ""
    · simp [ht, he] at h
    · cases hv : env.verify token with
      | error e => simp [ht, he, hv] at h
      | ok uid =>
        cases hf : env.findById uid with
        | error e => simp [ht, he, hv, hf] at h
        | ok o =>
          cases o with
          | none => simp [ht, he, hv, hf] at h
          | some u =>
            simp [ht, he, hv, hf] at h
            rw [← h]

theorem settled_same {st : ServerState} {r : Except JsError ServerState}
    (h : ∀ st1, r = .ok st1 → SameBookkeeping st1 st) : SameBookkeeping (settled st r) st := by
  cases r with
  | error e => exact ⟨rfl, rfl, rfl⟩
  | ok st1 => exact h st1 rfl

theorem emitRoom_same (st : ServerState) (room event : String) (payload : Payload)
    (skip : Option String) : SameBookkeeping (st.emitRoom room event payload skip) st :=
  ⟨rfl, rfl, rfl⟩

theorem onTaskCreated_same (s : Session) (pid : String) (task : JsVal) (st st1 : ServerState)
    (h : onTaskCreated s pid task st = .ok st1) : SameBookkeeping st1 st := by
  cases task with
  | nullish => simp [onTaskCreated] at h
  | str t => simp only [onTaskCreated, Except.ok.injEq] at h; subst h; exact emitRoom_same _ _ _ _ _
  | obj t i => simp only [onTaskCreated, Except.ok.injEq] at h; subst h; exact emitRoom_same _ _ _ _ _

theorem onTaskUpdated_same (s : Session) (pid : String) (task : JsVal) (st st1 : ServerState)
    (h : onTaskUpdated s pid task st = .ok st1) : SameBookkeeping st1 st := by
  cases task with
  | nullish => simp [onTaskUpdated] at h
  | str t => simp only [onTaskUpdated, Except.ok.injEq] at h; subst h; exact emitRoom_same _ _ _ _ _
  | obj t i => simp only [onTaskUpdated, Except.ok.injEq] at h; subst h; exact emitRoom_same _ _ _ _ _

/-- The relay listeners, the test echo and an emission of the notification service change
nothing but the deliveries. -/
theorem step_listener_same (env : AuthEnv) (st : ServerState) :
    (∀ x p, SameBookkeeping (step env st (.userActivity x p)) st) ∧
    (∀ x p, SameBookkeeping (step env st (.taskCreated x p)) st) ∧
    (∀ x p, SameBookkeeping (step env st (.taskUpdated x p)) st) ∧
    (∀ x p, SameBookkeeping (step env st (.taskDeleted x p)) st) ∧
    (∀ x d, SameBookkeeping (step env st (.testNotification x d)) st) ∧
    (∀ e, SameBookkeeping (step env st (.serviceEmit e)) st) := by
  refine ⟨?_, ?_, ?_, ?_, ?_, ?_⟩
  · intro x p
    simp only [step]
    cases st.findSocket x with
    | none => exact ⟨rfl, rfl, rfl⟩
    | some s =>
      apply settled_same
      intro st1 h
      cases p with
      | none => simp [onUserActivityMessage] at h
      | some m =>
        simp only [onUserActivityMessage, Except.ok.injEq] at h
        subst h
        exact emitRoom_same _ _ _ _ _
  · intro x p
    simp only [step]
    cases st.findSocket x with
    | none => exact ⟨rfl, rfl, rfl⟩
    | some s =>
      apply settled_same
      intro st1 h
      cases p with
      | none => simp [onTaskCreatedMessage] at h
      | some m => exact onTaskCreated_same s _ _ st st1 h
  · intro x p
    simp only [step]
    cases st.findSocket x with
    | none => exact ⟨rfl, rfl, rfl⟩
    | some s =>
      apply settled_same
      intro st1 h
      cases p with
      | none => simp [onTaskUpdatedMessage] at h
      | some m => exact onTaskUpdated_same s _ _ st st1 h
  · intro x p
    simp only [step]
    cases st.findSocket x with
    | none => exact ⟨rfl, rfl, rfl⟩
    | some s =>
      apply settled_same
      intro st1 h
      cases p with
      | none => simp [onTaskDeletedMessage] at h
      | some m =>
        simp only [onTaskDeletedMessage, Except.ok.injEq] at h
        subst h
        exact emitRoom_same _ _ _ _ _
  · intro x d
    simp only [step]
    cases st.findSocket x with
    | none => exact ⟨rfl, rfl, rfl⟩
    | some s => exact ⟨rfl, rfl, rfl⟩
  · intro e
    exact emitRoom_same _ _ _ _ _

theorem step_wf (env : AuthEnv) {st : ServerState} (h : WF st) (ev : Event)
    (hfresh : Fresh st ev) : WF (step env st ev) := by
  cases ev with
  | userActivity x p =>
    exact h.of_same ((step_listener_same env st).1 x p).1 ((step_listener_same env st).1 x p).2.1
  | taskCreated x p =>
    exact h.of_same ((step_listener_same env st).2.1 x p).1
      ((step_listener_same env st).2.1 x p).2.1
  | taskUpdated x p =>
    exact h.of_same ((step_listener_same env st).2.2.1 x p).1
      ((step_listener_same env st).2.2.1 x p).2.1
  | taskDeleted x p =>
    exact h.of_same ((step_listener_same env st).2.2.2.1 x p).1
      ((step_listener_same env st).2.2.2.1 x p).2.1
  | testNotification x d =>
    exact h.of_same ((step_listener_same env st).2.2.2.2.1 x d).1
      ((step_listener_same env st).2.2.2.2.1 x d).2.1
  | serviceEmit e =>
    exact h.of_same ((step_listener_same env st).2.2.2.2.2 e).1
      ((step_listener_same env st).2.2.2.2.2 e).2.1
  | connect socket =>
    simp only [step]
    cases hh : handshake env socket with
    | none => exact h
    | some s =>
      have hid := handshake_id hh
      have h1 : WF { st with sockets := st.sockets ++ [s] } :=
        h.addSocket s (by intro t ht; rw [hid]; exact hfresh t ht)
      have h2 : WF ({ st with sockets := st.sockets ++ [s] }.join s.id ("user_" ++ s.userId)) :=
        h1.join (List.mem_append_right _ (List.mem_singleton.mpr rfl)) _
          (fun I hI => user_room_inj _ _ hI)
      exact h2.of_same (by simp [onConnection, ServerState.emitTo, ServerState.join]; split <;> rfl)
        (by simp [onConnection, ServerState.emitTo, ServerState.join]; split <;> rfl)
  | joinProject x pid =>
    simp only [step]
    cases hf : st.findSocket x with
    | none => exact h
    | some s =>
      obtain ⟨hs, hid⟩ := findSocket_some hf
      have h1 : WF (st.join s.id ("project_" ++ pid)) :=
        h.join hs _ (fun I hI => absurd hI (project_ne_user pid I))
      unfold onJoinProject
      simp only
      split
      · exact h1
      · exact h1.of_same rfl rfl
  | leaveProject x pid =>
    simp only [step]
    cases hf : st.findSocket x with
    | none => exact h
    | some s =>
      exact (h.filter_members (fun m => decide (m ≠ ("project_" ++ pid, s.id)))).of_same rfl rfl
  | disconnect x =>
    simp only [step]
    cases hf : st.findSocket x with
    | none => exact h
    | some s => exact (h.cleanup x).of_same rfl rfl
  | timeout =>
    simp only [step]
    cases ht : st.timers with
    | nil => exact h
    | cons t rest =>
      cases t with
      | leaveRecompute pid => exact h.of_same rfl rfl
      | disconnectRecompute room x => exact h.of_same rfl rfl

theorem reachable_wf {env : AuthEnv} {st : ServerState} (h : Reachable env st) : WF st := by
  induction h with
  | start =>
    exact ⟨List.nodup_nil, (by intro m hm; cases hm), List.nodup_nil,
      (by intro m hm; cases hm)⟩
  | next st ev _ hfresh ih => exact step_wf env ih ev hfresh

theorem reachable_run {env : AuthEnv} : ∀ (evs : List Event) {st : ServerState},
    Reachable env st → FreshRun env st evs → Reachable env (run env st evs) := by
  intro evs
  induction evs with
  | nil => intro st h _; exact h
  | cons ev evs ih =>
    intro st h hf
    exact ih (Reachable.next st ev h hf.1) hf.2

theorem run_wf {env : AuthEnv} : ∀ (evs : List Event) {st : ServerState},
    WF st → FreshRun env st evs → WF (run env st evs) := by
  intro evs
  induction evs with
  | nil => intro st h _; exact h
  | cons ev evs ih =>
    intro st h hf
    exact ih (step_wf env h ev hf.1) hf.2

/-! ### Rooms and online members -/

theorem roomGet_getD (st : ServerState) (room : String) :
    (st.roomGet room).getD [] =
      (st.memberships.filter (fun m => decide (m.1 = room))).map (fun m => m.2) := by
  unfold ServerState.roomGet
  cases hl : (st.memberships.filter (fun m => decide (m.1 = room))).map (fun m => m.2) with
  | nil => simp
  | cons a l => simp

theorem roomGet_of_mem {st : ServerState} {room x : String} (h : (room, x) ∈ st.memberships) :
    ∃ ids, st.roomGet room = some ids := by
  cases hg : st.roomGet room with
  | none => exact absurd h (roomGet_none hg x)
  | some ids => exact ⟨ids, rfl⟩

theorem join_mem (st : ServerState) (x room : String) :
    (room, x) ∈ (st.join x room).memberships := by
  unfold ServerState.join
  split
  · assumption
  · simp

theorem join_roomGet (st : ServerState) (x room : String) :
    ((st.join x room).roomGet room).getD [] =
      if (room, x) ∈ st.memberships then (st.roomGet room).getD []
      else (st.roomGet room).getD [] ++ [x] := by
  rw [roomGet_getD, roomGet_getD]
  unfold ServerState.join
  by_cases h : (room, x) ∈ st.memberships
  · simp [h]
  · simp [h, List.filter_append]

/-- In a consistent state the loop over a list of live socket ids yields one entry per id
other than the skipped one, in the same order, each carrying the identity of the socket
with that id. -/
theorem onlineMembersOf_spec {st : ServerState} (h : WF st) (skip : Option String) :
    ∀ (ids : List String), (∀ x ∈ ids, ∃ s ∈ st.sockets, s.id = x) →
      (st.onlineMembersOf ids skip).map (fun m => m.socketId) =
        ids.filter (fun x => decide (some x ≠ skip)) ∧
      ∀ m ∈ st.onlineMembersOf ids skip, ∃ s ∈ st.sockets,
        s.id = m.socketId ∧ m._id = s.userId ∧ m.username = s.username := by
  intro ids
  induction ids with
  | nil => intro _; simp [ServerState.onlineMembersOf]
  | cons x xs ih =>
    intro hlive
    obtain ⟨s, hs, hid⟩ := hlive x (List.mem_cons_self _ _)
    have hf : st.findSocket x = some s := by
      rw [← hid]; exact findSocket_of_mem h.ids_nodup hs
    obtain ⟨ih1, ih2⟩ := ih (fun y hy => hlive y (List.mem_cons_of_mem _ hy))
    unfold ServerState.onlineMembersOf at ih1 ih2 ⊢
    by_cases hskip : some x = skip
    · have hskip1 : some s.id = skip := by rw [hid]; exact hskip
      simp only [List.filterMap_cons, hf, hskip1, if_true]
      refine ⟨?_, ih2⟩
      rw [ih1]
      simp [List.filter_cons, hskip]
    · have hskip1 : ¬ some s.id = skip := by rw [hid]; exact hskip
      simp only [List.filterMap_cons, hf, hskip1, if_false]
      refine ⟨?_, ?_⟩
      · rw [List.map_cons, ih1]
        simp [List.filter_cons, hskip]
      · intro m hm
        rcases List.mem_cons.mp hm with h1 | h1
        · subst h1
          exact ⟨s, hs, hid, rfl, rfl⟩
        · exact ih2 m h1

theorem filter_ne_none (ids : List String) :
    ids.filter (fun x => decide (some x ≠ (none : Option String))) = ids := by
  rw [List.filter_eq_self]
  intro a _
  simp

/-- Recomputing and broadcasting the list of a room in a consistent state: the list has
one entry per socket subscribed to the room now (the skipped socket left out), in arrival
order, and it is delivered once to each of those sockets and to no other. -/
theorem recompute_spec {st : ServerState} (h : WF st) (room : String) (skip : Option String) :
    ∃ ids members,
      ids.Nodup ∧
      (∀ x, x ∈ ids ↔ ((room, x) ∈ st.memberships ∧ some x ≠ skip)) ∧
      ids = ((st.roomGet room).getD []).filter (fun x => decide (some x ≠ skip)) ∧
      members.map (fun m => m.socketId) = ids ∧
      (∀ m ∈ members, ∃ s ∈ st.sockets,
        s.id = m.socketId ∧ m._id = s.userId ∧ m.username = s.username) ∧
      (match st.roomGet room with
        | none => []
        | some projectRoom => st.onlineMembersOf projectRoom skip) = members ∧
      st.emitRoom room "onlineMembers" (.onlineMembers members) skip =
        { st with outbox := st.outbox ++
            ids.map (fun id => ⟨id, "onlineMembers", .onlineMembers members⟩) } := by
  cases hg : st.roomGet room with
  | none =>
    refine ⟨[], [], List.nodup_nil, ?_, by simp, rfl, by simp, rfl, ?_⟩
    · intro x
      simp only [List.not_mem_nil, false_iff, not_and]
      intro hx
      exact absurd hx (roomGet_none hg x)
    · simp [ServerState.emitRoom, hg]
  | some projectRoom =>
    have hlive : ∀ x ∈ projectRoom, ∃ s ∈ st.sockets, s.id = x := by
      intro x hx
      exact h.members_live (room, x) ((mem_roomGet hg x).mp hx)
    obtain ⟨h1, h2⟩ := onlineMembersOf_spec h skip projectRoom hlive
    refine ⟨projectRoom.filter (fun x => decide (some x ≠ skip)),
      st.onlineMembersOf projectRoom skip,
      List.Nodup.filter _ (roomGet_nodup h.members_nodup hg), ?_, by simp, h1, h2, rfl, ?_⟩
    · intro x
      simp only [List.mem_filter, decide_eq_true_eq, mem_roomGet hg x]
    · simp [ServerState.emitRoom, hg]

/-! ### Connection -/

theorem mapGet_mapSet (m : List (String × PresenceEntry)) (k : String) (v : PresenceEntry) :
    mapGet (mapSet m k v) k = some v := by
  induction m with
  | nil => simp [mapSet, mapGet]
  | cons e rest ih =>
    obtain ⟨k1, v1⟩ := e
    unfold mapSet
    by_cases hk : k1 = k
    · simp [hk, mapGet]
    · simp only [hk, if_false]
      unfold mapGet at ih ⊢
      simp only [List.find?_cons, hk, decide_False]
      exact ih

theorem handshake_some {env : AuthEnv} {socket : Socket} {s : Session}
    (h : handshake env socket = some s) :
    ∃ token uid, socket.token = some token ∧ token ≠ "" ∧ env.verify token = .ok uid ∧
      env.findById uid = .ok (some s.user) ∧
      s = ⟨socket.id, s.user._id, s.user.username, s.user⟩ := by
  unfold handshake authMiddleware authMiddlewareTry at h
  cases ht : socket.token with
  | none => simp [ht] at h
  | some token =>
    by_cases he : token = ""
    · simp [ht, he] at h
    · cases hv : env.verify token with
      | error e => simp [ht, he, hv] at h
      | ok uid =>
        cases hf : env.findById uid with
        | error e => simp [ht, he, hv, hf] at h
        | ok o =>
          cases o with
          | none => simp [ht, he, hv, hf] at h
          | some u =>
            simp [ht, he, hv, hf] at h
            subst h
            exact ⟨token, uid, rfl, he, hv, hf, rfl⟩

/-- C11 (unauthenticated connect leaves the state untouched). A connection attempt without
a token is refused by the middleware, the connection handler does not run, and the state
after the attempt is the state before it: same `connectedUsers` (and size), same room
memberships, same live sockets. -/
theorem unauthenticated_connect_untouched (env : AuthEnv) (st : ServerState)
    (socket : Socket) (h : socket.token = none) :
    authMiddleware env socket = (socket, .refuse "Authentication error") ∧
    handshake env socket = none ∧
    step env st (.connect socket) = st ∧
    (step env st (.connect socket)).connectedUsers = st.connectedUsers ∧
    (step env st (.connect socket)).connectedUsers.length = st.connectedUsers.length ∧
    (step env st (.connect socket)).memberships = st.memberships ∧
    (step env st (.connect socket)).sockets = st.sockets := by
  have h1 : authMiddleware env socket = (socket, .refuse "Authentication error") := by
    simp [authMiddleware, authMiddlewareTry, h]
  have h2 : handshake env socket = none := by
    simp [handshake, h1]
  have h3 : step env st (.connect socket) = st := by
    simp [step, h2]
  exact ⟨h1, h2, h3, by rw [h3], by rw [h3], by rw [h3], by rw [h3]⟩

/-- Witness for C11: a tokenless attempt against a server with one live session. -/
theorem unauthenticated_connect_untouched_witness :
    step exampleEnv (run exampleEnv {} [.connect { id := "s1", token := some "u1" }])
        (.connect { id := "s2", token := none }) =
      run exampleEnv {} [.connect { id := "s1", token := some "u1" }] :=
  (unauthenticated_connect_untouched exampleEnv
    (run exampleEnv {} [.connect { id := "s1", token := some "u1" }])
    { id := "s2", token := none } rfl).2.2.1

/-- C12 (connect postcondition). When the handshake of a socket yields the session `S`
(the user found for the token), then right after the connection handler `connectedUsers`
maps the identity of `S` to an entry with the socket id of `S`, `S` is a member of the
room "user_" followed by its identity, and one "connected" event carrying the identity
and the username has been delivered to `S`. -/
theorem connect_postcondition (env : AuthEnv) (st : ServerState) (socket : Socket)
    (S : Session) (h : handshake env socket = some S) :
    S.id = socket.id ∧ S.userId = S.user._id ∧ S.username = S.user.username ∧
    mapGet (step env st (.connect socket)).connectedUsers S.userId =
      some ⟨S.id, S.username, S.user⟩ ∧
    (step env st (.connect socket)).isOnline S.userId = true ∧
    ("user_" ++ S.userId, S.id) ∈ (step env st (.connect socket)).memberships ∧
    (∃ ids, (step env st (.connect socket)).roomGet ("user_" ++ S.userId) = some ids ∧
      S.id ∈ ids) ∧
    (step env st (.connect socket)).outbox =
      st.outbox ++ [⟨S.id, "connected",
        .connected "Successfully connected to server" S.userId S.username⟩] := by
  obtain ⟨token, uid, -, -, -, -, hS⟩ := handshake_some h
  have hmem : ("user_" ++ S.userId, S.id) ∈ (step env st (.connect socket)).memberships := by
    simp only [step, h, onConnection, ServerState.emitTo]
    exact join_mem _ _ _
  have hget : mapGet (step env st (.connect socket)).connectedUsers S.userId =
      some ⟨S.id, S.username, S.user⟩ := by
    simp only [step, h, onConnection, ServerState.emitTo, ServerState.join]
    split <;> exact mapGet_mapSet _ _ _
  refine ⟨handshake_id h, by rw [hS], by rw [hS], hget, ?_, hmem, ?_, ?_⟩
  · simp [ServerState.isOnline, hget]
  · obtain ⟨ids, hids⟩ := roomGet_of_mem hmem
    exact ⟨ids, hids, (mem_roomGet hids S.id).mpr hmem⟩
  · simp only [step, h, onConnection, ServerState.emitTo, ServerState.join]
    split <;> rfl

/-- Witness for C12: user u1 connects on socket s1. -/
theorem connect_postcondition_witness :
    (step exampleEnv {} (.connect { id := "s1", token := some "u1" })).isOnline "u1" = true ∧
    ("user_u1", "s1") ∈ (step exampleEnv {} (.connect { id := "s1", token := some "u1" })).memberships ∧
    (step exampleEnv {} (.connect { id := "s1", token := some "u1" })).outbox =
      [⟨"s1", "connected", .connected "Successfully connected to server" "u1" "u1"⟩] :=
  have h := connect_postcondition exampleEnv {} { id := "s1", token := some "u1" }
    ⟨"s1", "u1", "u1", ⟨"u1", "u1"⟩⟩ rfl
  ⟨h.2.2.2.2.1, h.2.2.2.2.2.1, h.2.2.2.2.2.2.2⟩

/-! ### Presence and disconnect -/

/-- C13 (presence does not reflect live sessions). Identity u1 opens sessions s1 and s2 and
s2 disconnects: the state is reachable, s1 is still a live session of u1, so one identity
holds a live session, yet `connectedUsers` is empty and u1 is not online, because the
"disconnect" listener deletes the entry of the identity whatever socket it records. -/
theorem presence_lost_while_session_live :
    Reachable exampleEnv
      (run exampleEnv {}
        [.connect { id := "s1", token := some "u1" }, .connect { id := "s2", token := some "u1" },
          .disconnect "s2"]) ∧
    (run exampleEnv {}
        [.connect { id := "s1", token := some "u1" }, .connect { id := "s2", token := some "u1" },
          .disconnect "s2"]).sockets = [⟨"s1", "u1", "u1", ⟨"u1", "u1"⟩⟩] ∧
    liveIdentities (run exampleEnv {}
        [.connect { id := "s1", token := some "u1" }, .connect { id := "s2", token := some "u1" },
          .disconnect "s2"]) = ["u1"] ∧
    (run exampleEnv {}
        [.connect { id := "s1", token := some "u1" }, .connect { id := "s2", token := some "u1" },
          .disconnect "s2"]).isOnline "u1" = false ∧
    (run exampleEnv {}
        [.connect { id := "s1", token := some "u1" }, .connect { id := "s2", token := some "u1" },
          .disconnect "s2"]).connectedUsers.length = 0 ∧
    (run exampleEnv {}
        [.connect { id := "s1", token := some "u1" },
          .connect { id := "s2", token := some "u1" }]).connectedUsers =
      [("u1", ⟨"s2", "u1", ⟨"u1", "u1"⟩⟩)] :=
  ⟨reachable_run _ Reachable.start (by decide), by decide, by decide, by decide, by decide,
    by decide⟩

theorem cleanup_socketRooms (st : ServerState) (x : String) :
    (st.cleanup x).socketRooms x = [] := by
  simp only [ServerState.socketRooms, ServerState.cleanup, List.filter_filter]
  rw [List.map_eq_nil_iff, List.filter_eq_nil_iff]
  intro m _
  simp

/-- A close leaves the pending timers and the deliveries as they are. -/
theorem close_effect (env : AuthEnv) (st : ServerState) (x : String) :
    (step env st (.disconnect x)).timers = st.timers ∧
    (step env st (.disconnect x)).outbox = st.outbox := by
  constructor
  · simp only [step]
    cases hf : st.findSocket x with
    | none => rfl
    | some s =>
      obtain ⟨-, hid⟩ := findSocket_some hf
      have h1 : (st.cleanup x).socketRooms s.id = [] := by
        rw [hid]; exact cleanup_socketRooms st x
      simp only [onDisconnect]
      have h2 : ({ st.cleanup x with
          connectedUsers := mapDelete (st.cleanup x).connectedUsers s.userId } :
            ServerState).socketRooms s.id = [] := h1
      rw [h2]
      simp [ServerState.cleanup]
  · simp only [step]
    cases hf : st.findSocket x with
    | none => rfl
    | some s => rfl

/-- C15 (disconnect does not recompute). When socket.io emits "disconnect" the socket has
already left all its rooms, so the listener finds `socket.rooms` empty and schedules no
timer: a close changes neither the pending timers nor the deliveries, for every state and
socket. In the scenario of room project_42 with sessions A, B, C, after C disconnects the
room holds A and B, no timer is pending, and neither A nor B is ever sent the list
[A, B]; the listener would have scheduled the recomputation of project_42 had it run
while C was still in its rooms. -/
theorem disconnect_schedules_no_recompute (env : AuthEnv) (st : ServerState) (x : String) :
    (st.cleanup x).socketRooms x = [] ∧
    (step env st (.disconnect x)).timers = st.timers ∧
    (step env st (.disconnect x)).outbox = st.outbox ∧
    (run exampleEnv {}
        [.connect { id := "A", token := some "a" }, .connect { id := "B", token := some "b" },
          .connect { id := "C", token := some "c" }, .joinProject "A" "42",
          .joinProject "B" "42", .joinProject "C" "42"]).roomGet "project_42" =
      some ["A", "B", "C"] ∧
    (run exampleEnv {}
        [.connect { id := "A", token := some "a" }, .connect { id := "B", token := some "b" },
          .connect { id := "C", token := some "c" }, .joinProject "A" "42",
          .joinProject "B" "42", .joinProject "C" "42",
          .disconnect "C"]).roomGet "project_42" = some ["A", "B"] ∧
    (run exampleEnv {}
        [.connect { id := "A", token := some "a" }, .connect { id := "B", token := some "b" },
          .connect { id := "C", token := some "c" }, .joinProject "A" "42",
          .joinProject "B" "42", .joinProject "C" "42",
          .disconnect "C"]).timers = [] ∧
    (run exampleEnv {}
        [.connect { id := "A", token := some "a" }, .connect { id := "B", token := some "b" },
          .connect { id := "C", token := some "c" }, .joinProject "A" "42",
          .joinProject "B" "42", .joinProject "C" "42",
          .disconnect "C", .timeout]).outbox =
      (run exampleEnv {}
        [.connect { id := "A", token := some "a" }, .connect { id := "B", token := some "b" },
          .connect { id := "C", token := some "c" }, .joinProject "A" "42",
          .joinProject "B" "42", .joinProject "C" "42"]).outbox ∧
    (onDisconnect ⟨"C", "c", "c", ⟨"c", "c"⟩⟩
      (run exampleEnv {}
        [.connect { id := "A", token := some "a" }, .connect { id := "B", token := some "b" },
          .connect { id := "C", token := some "c" }, .joinProject "A" "42",
          .joinProject "B" "42", .joinProject "C" "42"])).timers =
      [.disconnectRecompute "project_42" "C"] :=
  ⟨cleanup_socketRooms st x, (close_effect env st x).1, (close_effect env st x).2,
    by decide, by decide, by decide, by decide, by decide⟩

/-! ### Leaving a project room -/

/-- Counterexample for C16: sessions A and S are in room project_42; S leaves and the
delayed broadcast is made; S leaves a second time and the next timer fires. The
memberships are the same before and after the second leave, but A has been sent one more
"onlineMembers" event. -/
theorem second_leave_broadcasts_again :
    (run exampleEnv {}
        [.connect { id := "A", token := some "a" }, .connect { id := "S", token := some "s" },
          .joinProject "A" "42", .joinProject "S" "42", .leaveProject "S" "42", .timeout,
          .leaveProject "S" "42", .timeout]).memberships =
      (run exampleEnv {}
        [.connect { id := "A", token := some "a" }, .connect { id := "S", token := some "s" },
          .joinProject "A" "42", .joinProject "S" "42", .leaveProject "S" "42",
          .timeout]).memberships ∧
    (run exampleEnv {}
        [.connect { id := "A", token := some "a" }, .connect { id := "S", token := some "s" },
          .joinProject "A" "42", .joinProject "S" "42", .leaveProject "S" "42", .timeout,
          .leaveProject "S" "42", .timeout]).outbox =
      (run exampleEnv {}
        [.connect { id := "A", token := some "a" }, .connect { id := "S", token := some "s" },
          .joinProject "A" "42", .joinProject "S" "42", .leaveProject "S" "42",
          .timeout]).outbox ++
        [⟨"A", "onlineMembers", .onlineMembers [⟨"a", "a", "A"⟩]⟩] ∧
    (run exampleEnv {}
        [.connect { id := "A", token := some "a" }, .connect { id := "S", token := some "s" },
          .joinProject "A" "42", .joinProject "S" "42", .leaveProject "S" "42", .timeout,
          .leaveProject "S" "42", .timeout]).outbox ≠
      (run exampleEnv {}
        [.connect { id := "A", token := some "a" }, .connect { id := "S", token := some "s" },
          .joinProject "A" "42", .joinProject "S" "42", .leaveProject "S" "42",
          .timeout]).outbox := by
  decide

/-- C16 as amended (a repeated leave keeps the membership and schedules one more
broadcast). When a live session `S` that is not subscribed to the room of `projectId`
(as after a first leave) sends `leaveProject` again, in any consistent state, memberships,
live sockets and presence are unchanged and nothing is delivered at once, but one more
timer is scheduled; and whenever such a timer fires, in any consistent state, the
"onlineMembers" event goes once to each session subscribed to the room at that moment and
lists exactly those sessions, so it lists `S` only if `S` is subscribed again. -/
theorem second_leave_keeps_membership (env : AuthEnv) (st : ServerState) (S : Session)
    (projectId : String) (hS : S ∈ st.sockets) (hwf : WF st)
    (hout : ("project_" ++ projectId, S.id) ∉ st.memberships) :
    (step env st (.leaveProject S.id projectId)).memberships = st.memberships ∧
    (step env st (.leaveProject S.id projectId)).sockets = st.sockets ∧
    (step env st (.leaveProject S.id projectId)).connectedUsers = st.connectedUsers ∧
    (step env st (.leaveProject S.id projectId)).outbox = st.outbox ∧
    (step env st (.leaveProject S.id projectId)).timers =
      st.timers ++ [.leaveRecompute projectId] ∧
    ∀ st2, WF st2 →
      ∃ (ids : List String) (members : List OnlineMember),
        fireTimer (.leaveRecompute projectId) st2 =
          { st2 with outbox := st2.outbox ++
              ids.map (fun id => ⟨id, "onlineMembers", .onlineMembers members⟩) } ∧
        ids.Nodup ∧
        (∀ x, x ∈ ids ↔ ("project_" ++ projectId, x) ∈ st2.memberships) ∧
        members.map (fun m => m.socketId) = ids ∧
        (S.id ∈ ids ↔ ("project_" ++ projectId, S.id) ∈ st2.memberships) := by
  have hf : st.findSocket S.id = some S := findSocket_of_mem hwf.ids_nodup hS
  have hmem : st.memberships.filter (fun m => decide (m ≠ ("project_" ++ projectId, S.id))) =
      st.memberships := by
    rw [List.filter_eq_self]
    intro m hm
    have : m ≠ ("project_" ++ projectId, S.id) := fun h => hout (h ▸ hm)
    simpa using this
  refine ⟨?_, ?_, ?_, ?_, ?_, ?_⟩
  · simp only [step, hf, onLeaveProject, ServerState.leave]
    exact hmem
  · simp only [step, hf, onLeaveProject, ServerState.leave]
  · simp only [step, hf, onLeaveProject, ServerState.leave]
  · simp only [step, hf, onLeaveProject, ServerState.leave]
  · simp only [step, hf, onLeaveProject, ServerState.leave]
  · intro st2 hwf2
    obtain ⟨ids, members, hnd, hmem2, -, hmap, -, hcomp, hemit⟩ :=
      recompute_spec hwf2 ("project_" ++ projectId) none
    refine ⟨ids, members, ?_, hnd, ?_, hmap, ?_⟩
    · simp only [fireTimer]
      rw [hcomp, hemit]
    · intro x
      rw [hmem2 x]
      simp
    · rw [hmem2 S.id]
      simp

/-- Witness for C16 as amended: S has left room project_42 once (after a test echo) and
leaves again. -/
theorem second_leave_keeps_membership_witness :
    (step exampleEnv
        (run exampleEnv {}
          [.connect { id := "A", token := some "a" }, .connect { id := "S", token := some "s" },
            .joinProject "A" "42", .joinProject "S" "42", .testNotification "S" .nullish,
            .leaveProject "S" "42", .timeout])
        (.leaveProject "S" "42")).timers = [.leaveRecompute "42"] ∧
    (step exampleEnv
        (run exampleEnv {}
          [.connect { id := "A", token := some "a" }, .connect { id := "S", token := some "s" },
            .joinProject "A" "42", .joinProject "S" "42", .testNotification "S" .nullish,
            .leaveProject "S" "42", .timeout])
        (.leaveProject "S" "42")).memberships =
      [("user_a", "A"), ("user_s", "S"), ("project_42", "A")] :=
  have h := second_leave_keeps_membership exampleEnv
    (run exampleEnv {}
      [.connect { id := "A", token := some "a" }, .connect { id := "S", token := some "s" },
        .joinProject "A" "42", .joinProject "S" "42", .testNotification "S" .nullish,
            .leaveProject "S" "42", .timeout])
    ⟨"S", "s", "s", ⟨"s", "s"⟩⟩ "42" (by decide)
    (reachable_wf (reachable_run _ Reachable.start (by decide))) (by decide)
  ⟨h.2.2.2.2.1, h.1⟩

/-! ### Joining a project room -/

theorem roomGet_congr {st st1 : ServerState} (h : st1.memberships = st.memberships)
    (room : String) : st1.roomGet room = st.roomGet room := by
  unfold ServerState.roomGet
  rw [h]

/-- C14 (online-member computation). When a live session `S` sends `joinProject` in a
consistent state (socket ids unique, room members live: every state the server reaches,
whatever was relayed or delivered before), the room of the project then holds the sessions it held before, in their
order of arrival, with `S` appended if it was not a member; the list computed by the
handler has exactly one entry per session of the room, in that order, each with the socket
id, identity and username of that session (so two sessions of one identity give two entries
with different socket ids), no entry for any other session; and one "onlineMembers" event
with that list is delivered to each session of the room. -/
theorem join_online_members (env : AuthEnv) (st : ServerState) (S : Session)
    (projectId : String) (hS : S ∈ st.sockets) (hwf : WF st) :
    ∃ (ids : List String) (members : List OnlineMember),
      (step env st (.joinProject S.id projectId)).roomGet ("project_" ++ projectId) =
        some ids ∧
      ids = (if ("project_" ++ projectId, S.id) ∈ st.memberships
              then (st.roomGet ("project_" ++ projectId)).getD []
              else (st.roomGet ("project_" ++ projectId)).getD [] ++ [S.id]) ∧
      ids.Nodup ∧ S.id ∈ ids ∧
      (∀ x, x ∈ ids ↔
        ("project_" ++ projectId, x) ∈ (step env st (.joinProject S.id projectId)).memberships) ∧
      members.map (fun m => m.socketId) = ids ∧
      (∀ m ∈ members, ∃ s ∈ (step env st (.joinProject S.id projectId)).sockets,
        s.id = m.socketId ∧ m._id = s.userId ∧ m.username = s.username) ∧
      (step env st (.joinProject S.id projectId)).outbox =
        st.outbox ++ ids.map (fun id => ⟨id, "onlineMembers", .onlineMembers members⟩) := by
  have hf : st.findSocket S.id = some S := findSocket_of_mem hwf.ids_nodup hS
  have hwf1 : WF (st.join S.id ("project_" ++ projectId)) :=
    hwf.join hS _ (fun I hI => absurd hI (project_ne_user projectId I))
  obtain ⟨projectRoom, hroom⟩ :=
    roomGet_of_mem (join_mem st S.id ("project_" ++ projectId))
  obtain ⟨ids, members, hnd, hmem, hids, hmap, hent, hcomp, hemit⟩ :=
    recompute_spec hwf1 ("project_" ++ projectId) none
  have hstep : step env st (.joinProject S.id projectId) =
      { st.join S.id ("project_" ++ projectId) with
        outbox := (st.join S.id ("project_" ++ projectId)).outbox ++
          ids.map (fun id => ⟨id, "onlineMembers", .onlineMembers members⟩) } := by
    simp only [step, hf, onJoinProject, hroom]
    rw [hroom] at hcomp
    simp only at hcomp
    rw [hcomp, hemit]
  have hids1 : ids = projectRoom := by
    rw [hids, hroom, Option.getD_some, filter_ne_none]
  have hout : (st.join S.id ("project_" ++ projectId)).outbox = st.outbox := by
    unfold ServerState.join
    split <;> rfl
  refine ⟨ids, members, ?_, ?_, hnd, ?_, ?_, hmap, ?_, ?_⟩
  · rw [hstep, hids1]
    exact (roomGet_congr rfl _).trans hroom
  · rw [hids1]
    have := join_roomGet st S.id ("project_" ++ projectId)
    rw [hroom, Option.getD_some] at this
    exact this
  · rw [hmem S.id]
    exact ⟨join_mem _ _ _, by simp⟩
  · intro x
    rw [hmem x, hstep]
    simp
  · intro m hm
    rw [hstep]
    exact hent m hm
  · rw [hstep]
    simp only [hout]

/-- Witness for C14: identity a holds sessions A1 and A2, identity b holds B; A1 and B are
in room project_42, a test echo and a relay have happened, and A2 joins: the room is then
A1, B, A2 in arrival order and the list sent has one entry per member. -/
theorem join_online_members_witness :
    (step exampleEnv
        (run exampleEnv {}
          [.connect { id := "A1", token := some "a" }, .connect { id := "B", token := some "b" },
            .connect { id := "A2", token := some "a" }, .testNotification "B" .nullish,
            .joinProject "A1" "42", .taskDeleted "A1" (some ⟨"42", [("taskId", .str "t1")]⟩),
            .joinProject "B" "42"])
        (.joinProject "A2" "42")).roomGet "project_42" = some ["A1", "B", "A2"] ∧
    ∃ (ids : List String) (members : List OnlineMember),
      (step exampleEnv
        (run exampleEnv {}
          [.connect { id := "A1", token := some "a" }, .connect { id := "B", token := some "b" },
            .connect { id := "A2", token := some "a" }, .testNotification "B" .nullish,
            .joinProject "A1" "42", .taskDeleted "A1" (some ⟨"42", [("taskId", .str "t1")]⟩),
            .joinProject "B" "42"])
        (.joinProject "A2" "42")).roomGet ("project_" ++ "42") = some ids ∧
      members.map (fun m => m.socketId) = ids ∧ "A2" ∈ ids ∧ ids.Nodup := by
  obtain ⟨ids, members, h1, -, h3, h4, -, h6, -, -⟩ :=
    join_online_members exampleEnv
      (run exampleEnv {}
        [.connect { id := "A1", token := some "a" }, .connect { id := "B", token := some "b" },
          .connect { id := "A2", token := some "a" }, .testNotification "B" .nullish,
            .joinProject "A1" "42", .taskDeleted "A1" (some ⟨"42", [("taskId", .str "t1")]⟩),
          .joinProject "B" "42"])
      ⟨"A2", "a", "a", ⟨"a", "a"⟩⟩ "42" (by decide)
      (reachable_wf (reachable_run _ Reachable.start (by decide)))
  exact ⟨by decide, ids, members, h1, h6, h4, h3⟩

/-- The scenario of the witness for C14 evaluated: the three deliveries made by the
join of A2. -/
theorem join_online_members_scenario :
    ((run exampleEnv {}
        [.connect { id := "A1", token := some "a" }, .connect { id := "B", token := some "b" },
          .connect { id := "A2", token := some "a" }, .joinProject "A1" "42",
          .joinProject "B" "42", .joinProject "A2" "42"]).outbox.drop 6) =
      [ ⟨"A1", "onlineMembers",
          .onlineMembers [⟨"a", "a", "A1"⟩, ⟨"b", "b", "B"⟩, ⟨"a", "a", "A2"⟩]⟩,
        ⟨"B", "onlineMembers",
          .onlineMembers [⟨"a", "a", "A1"⟩, ⟨"b", "b", "B"⟩, ⟨"a", "a", "A2"⟩]⟩,
        ⟨"A2", "onlineMembers",
          .onlineMembers [⟨"a", "a", "A1"⟩, ⟨"b", "b", "B"⟩, ⟨"a", "a", "A2"⟩]⟩ ] := by
  decide

/-! ### Relays -/

theorem emitRoom_eq (st : ServerState) (room event : String) (payload : Payload)
    (skip : Option String) :
    st.emitRoom room event payload skip =
      { st with outbox := (st.outbox ++
          (((st.roomGet room).getD []).filter (fun x => decide (some x ≠ skip))).map
            (fun id => ⟨id, event, payload⟩)) } := by
  unfold ServerState.emitRoom
  cases st.roomGet room <;> simp

/-- C17 (originator exclusion). For a session `S`, a consistent state (as every state the
server reaches, after any number of earlier relays) and a message object naming a project,
there is a duplicate-free list of targets, namely the sessions subscribed to the room of
the project other than `S` (empty when there is no other subscriber), such that a
userActivity or taskDeleted message, and a taskCreated or taskUpdated message that carries
a task, changes nothing but the deliveries and adds exactly one event of the same name per
target; so nothing goes to `S` nor to a session outside the room. A taskCreated or
taskUpdated message without a task, and any of the four messages without a payload
object, makes the listener throw before it emits: nothing is delivered to anyone. -/
theorem relay_excludes_originator (env : AuthEnv) (st : ServerState) (S : Session)
    (m : ClientMessage) (hwf : WF st) (hS : S ∈ st.sockets) :
    ∃ (targets : List String),
      targets.Nodup ∧
      (∀ x, x ∈ targets ↔ (("project_" ++ m.projectId, x) ∈ st.memberships ∧ x ≠ S.id)) ∧
      ((∀ x, ("project_" ++ m.projectId, x) ∈ st.memberships → x = S.id) → targets = []) ∧
      step env st (.userActivity S.id (some m)) =
        { st with outbox := (st.outbox ++ targets.map (fun id =>
            ⟨id, "userActivity", .userActivity S.userId S.username (m.get "activity")⟩)) } ∧
      step env st (.taskDeleted S.id (some m)) =
        { st with outbox := (st.outbox ++ targets.map (fun id =>
            ⟨id, "taskDeleted",
              .taskDeleted (m.get "taskId") (m.get "taskTitle") S.userId⟩)) } ∧
      (m.get "task" ≠ .nullish →
        onTaskCreatedMessage S (some m) st =
          .ok { st with outbox := (st.outbox ++ targets.map (fun id =>
            ⟨id, "taskCreated", .task (m.get "task")⟩)) } ∧
        step env st (.taskCreated S.id (some m)) =
          { st with outbox := (st.outbox ++ targets.map (fun id =>
            ⟨id, "taskCreated", .task (m.get "task")⟩)) } ∧
        onTaskUpdatedMessage S (some m) st =
          .ok { st with outbox := (st.outbox ++ targets.map (fun id =>
            ⟨id, "taskUpdated", .task (m.get "task")⟩)) } ∧
        step env st (.taskUpdated S.id (some m)) =
          { st with outbox := (st.outbox ++ targets.map (fun id =>
            ⟨id, "taskUpdated", .task (m.get "task")⟩)) }) ∧
      (m.get "task" = .nullish →
        onTaskCreatedMessage S (some m) st = .error .typeError ∧
        step env st (.taskCreated S.id (some m)) = st ∧
        onTaskUpdatedMessage S (some m) st = .error .typeError ∧
        step env st (.taskUpdated S.id (some m)) = st) ∧
      (onUserActivityMessage S none st = .error .typeError ∧
        step env st (.userActivity S.id none) = st ∧
        step env st (.taskCreated S.id none) = st ∧
        step env st (.taskUpdated S.id none) = st ∧
        step env st (.taskDeleted S.id none) = st) := by
  have hf : st.findSocket S.id = some S := findSocket_of_mem hwf.ids_nodup hS
  obtain ⟨ids, members, hnd, hmem, hids, -, -, -, -⟩ :=
    recompute_spec hwf ("project_" ++ m.projectId) (some S.id)
  have hmem1 : ∀ x, x ∈ ids ↔ (("project_" ++ m.projectId, x) ∈ st.memberships ∧ x ≠ S.id) := by
    intro x
    rw [hmem x]
    simp
  refine ⟨ids, hnd, hmem1, ?_, ?_, ?_, ?_, ?_, ?_⟩
  · intro hall
    apply List.eq_nil_iff_forall_not_mem.mpr
    intro x hx
    obtain ⟨h1, h2⟩ := (hmem1 x).mp hx
    exact h2 (hall x h1)
  · rw [hids]
    simp only [step, hf, settled, onUserActivityMessage, onUserActivity, emitRoom_eq]
  · rw [hids]
    simp only [step, hf, settled, onTaskDeletedMessage, onTaskDeleted, emitRoom_eq]
  · intro ht
    rw [hids]
    simp only [step, hf, onTaskCreatedMessage, onTaskUpdatedMessage]
    cases htask : m.get "task" with
    | nullish => exact absurd htask ht
    | str t =>
      simp only [onTaskCreated, onTaskUpdated, settled, emitRoom_eq]
      all_goals simp
    | obj t i =>
      simp only [onTaskCreated, onTaskUpdated, settled, emitRoom_eq]
      all_goals simp
  · intro ht
    simp only [step, hf, onTaskCreatedMessage, onTaskUpdatedMessage, ht, onTaskCreated,
      onTaskUpdated, settled]
    all_goals simp
  · simp only [step, hf, onUserActivityMessage, onTaskCreatedMessage, onTaskUpdatedMessage,
      onTaskDeletedMessage, settled]
    all_goals simp

/-- Witness for C17: sessions A, B, C in room project_42, D outside, after a test echo and
an earlier relay; A reports a created task: B and C are targets, A and D are not. -/
theorem relay_excludes_originator_witness :
    ∃ (targets : List String),
      targets.Nodup ∧ "B" ∈ targets ∧ "C" ∈ targets ∧ "A" ∉ targets ∧ "D" ∉ targets ∧
      step exampleEnv
        (run exampleEnv {}
          [.connect { id := "A", token := some "a" }, .testNotification "A" .nullish,
            .connect { id := "B", token := some "b" },
            .connect { id := "C", token := some "c" }, .connect { id := "D", token := some "d" },
            .joinProject "A" "42", .joinProject "B" "42", .joinProject "C" "42",
            .userActivity "B" (some ⟨"42", [("activity", .str "typing")]⟩)])
        (.taskCreated "A" (some ⟨"42", [("task", .obj "task" (.str "t1"))]⟩)) =
      { run exampleEnv {}
          [.connect { id := "A", token := some "a" }, .testNotification "A" .nullish,
            .connect { id := "B", token := some "b" },
            .connect { id := "C", token := some "c" }, .connect { id := "D", token := some "d" },
            .joinProject "A" "42", .joinProject "B" "42", .joinProject "C" "42",
            .userActivity "B" (some ⟨"42", [("activity", .str "typing")]⟩)] with
        outbox := ((run exampleEnv {}
          [.connect { id := "A", token := some "a" }, .testNotification "A" .nullish,
            .connect { id := "B", token := some "b" },
            .connect { id := "C", token := some "c" }, .connect { id := "D", token := some "d" },
            .joinProject "A" "42", .joinProject "B" "42", .joinProject "C" "42",
            .userActivity "B" (some ⟨"42", [("activity", .str "typing")]⟩)]).outbox ++
          targets.map (fun id => ⟨id, "taskCreated", .task (.obj "task" (.str "t1"))⟩)) } := by
  obtain ⟨targets, hnd, hmem, -, -, -, h, -, -⟩ :=
    relay_excludes_originator exampleEnv
      (run exampleEnv {}
        [.connect { id := "A", token := some "a" }, .testNotification "A" .nullish,
          .connect { id := "B", token := some "b" },
          .connect { id := "C", token := some "c" }, .connect { id := "D", token := some "d" },
          .joinProject "A" "42", .joinProject "B" "42", .joinProject "C" "42",
          .userActivity "B" (some ⟨"42", [("activity", .str "typing")]⟩)])
      ⟨"A", "a", "a", ⟨"a", "a"⟩⟩ ⟨"42", [("task", .obj "task" (.str "t1"))]⟩
      (reachable_wf (reachable_run _ Reachable.start (by decide))) (by decide)
  refine ⟨targets, hnd, (hmem "B").mpr (by decide), (hmem "C").mpr (by decide), ?_, ?_,
    (h (by decide)).2.1⟩
  · intro hA
    exact absurd ((hmem "A").mp hA) (by decide)
  · intro hD
    exact absurd ((hmem "D").mp hD) (by decide)

/-! ### Delayed recomputation -/

/-- An event other than a timer expiry keeps the pending timers and may add some. -/
theorem step_timers (env : AuthEnv) (st : ServerState) (ev : Event) (hev : ev ≠ .timeout) :
    ∃ more, (step env st ev).timers = st.timers ++ more := by
  cases ev with
  | connect socket =>
    refine ⟨[], ?_⟩
    simp only [step]
    cases handshake env socket with
    | none => simp
    | some s =>
      simp only [onConnection, ServerState.emitTo, ServerState.join]
      split <;> simp
  | joinProject x pid =>
    refine ⟨[], ?_⟩
    simp only [step]
    cases st.findSocket x with
    | none => simp
    | some s =>
      simp only [onJoinProject]
      split
      · simp only [ServerState.join]
        split <;> simp
      · simp only [ServerState.emitRoom, ServerState.join]
        split <;> simp
  | leaveProject x pid =>
    simp only [step]
    cases st.findSocket x with
    | none => exact ⟨[], by simp⟩
    | some s => exact ⟨[.leaveRecompute pid], rfl⟩
  | disconnect x => exact ⟨[], by rw [(close_effect env st x).1]; simp⟩
  | timeout => exact absurd rfl hev
  | userActivity x p => exact ⟨[], by rw [((step_listener_same env st).1 x p).2.2]; simp⟩
  | taskCreated x p => exact ⟨[], by rw [((step_listener_same env st).2.1 x p).2.2]; simp⟩
  | taskUpdated x p => exact ⟨[], by rw [((step_listener_same env st).2.2.1 x p).2.2]; simp⟩
  | taskDeleted x p => exact ⟨[], by rw [((step_listener_same env st).2.2.2.1 x p).2.2]; simp⟩
  | testNotification x d =>
    exact ⟨[], by rw [((step_listener_same env st).2.2.2.2.1 x d).2.2]; simp⟩
  | serviceEmit e => exact ⟨[], by rw [((step_listener_same env st).2.2.2.2.2 e).2.2]; simp⟩

theorem run_timers (env : AuthEnv) : ∀ (evs : List Event) (st : ServerState),
    Event.timeout ∉ evs → ∃ more, (run env st evs).timers = st.timers ++ more := by
  intro evs
  induction evs with
  | nil => intro st _; exact ⟨[], by simp [run]⟩
  | cons ev evs ih =>
    intro st hev
    have h1 : ev ≠ .timeout := fun h => hev (h ▸ List.mem_cons_self _ _)
    have h2 : Event.timeout ∉ evs := fun h => hev (List.mem_cons_of_mem _ h)
    obtain ⟨m1, hm1⟩ := step_timers env st ev h1
    obtain ⟨m2, hm2⟩ := ih (step env st ev) h2
    refine ⟨m1 ++ m2, ?_⟩
    have : run env st (ev :: evs) = run env (step env st ev) evs := rfl
    rw [this, hm2, hm1, List.append_assoc]

theorem fireTimer_timers (t : Timer) (st : ServerState) :
    (fireTimer t st).timers = st.timers := by
  cases t <;> rfl

/-- Timers fire in the order in which they were scheduled: after a run in which no more
timers expire than were pending, the pending timers are the old ones minus those that
expired, followed by the ones scheduled meanwhile. -/
theorem run_timers_drop (env : AuthEnv) : ∀ (evs : List Event) (st : ServerState),
    evs.count .timeout ≤ st.timers.length →
    ∃ more, (run env st evs).timers = st.timers.drop (evs.count .timeout) ++ more := by
  intro evs
  induction evs with
  | nil => intro st _; exact ⟨[], by simp [run]⟩
  | cons ev evs ih =>
    intro st hle
    have hrun : run env st (ev :: evs) = run env (step env st ev) evs := rfl
    by_cases hev : ev = .timeout
    · subst hev
      rw [List.count_cons_self] at hle ⊢
      cases ht : st.timers with
      | nil => rw [ht] at hle; simp at hle
      | cons t rest =>
        rw [ht] at hle
        have hst : (step env st .timeout).timers = rest := by
          simp only [step, ht]
          exact fireTimer_timers t _
        have hle1 : evs.count .timeout ≤ (step env st .timeout).timers.length := by
          rw [hst]; simpa using hle
        obtain ⟨more, hmore⟩ := ih (step env st .timeout) hle1
        exact ⟨more, by rw [hrun, hmore, hst, List.drop_succ_cons]⟩
    · have hne : Event.timeout ≠ ev := fun h => hev h.symm
      rw [List.count_cons_of_ne hne] at hle ⊢
      obtain ⟨m1, hm1⟩ := step_timers env st ev hev
      have hle1 : evs.count .timeout ≤ (step env st ev).timers.length := by
        rw [hm1, List.length_append]; omega
      obtain ⟨m2, hm2⟩ := ih (step env st ev) hle1
      refine ⟨m1 ++ m2, ?_⟩
      rw [hrun, hm2, hm1, List.drop_append_of_le_length hle, List.append_assoc]

/-- C19 (delayed recomputation reads the current state). A live session `S` sends
`leaveProject` in any consistent state (as every state the server reaches); then any events
happen (joins, leaves, connects, closes, relays, test echoes, notifications), among them
the expiry of exactly the timers that were pending before the leave, so that the timer of
this leave is the next to fire; then it fires. The "onlineMembers" event it sends goes to,
and lists in arrival order, exactly the sessions subscribed to the room in the state in
which the timer fires: `S` is listed if it has rejoined, and so is every session that
joined meanwhile. The callback of the "disconnect" listener, fired in any consistent state,
likewise lists and addresses exactly the sessions subscribed to its room in that state
other than the closed socket; and the callback of the "leaveProject" listener does so in
whatever consistent state it fires. -/
theorem delayed_recompute_reads_current (env : AuthEnv) (st : ServerState) (S : Session)
    (projectId : String) (evs : List Event)
    (hwf : WF st) (hS : S ∈ st.sockets)
    (hcount : evs.count .timeout = st.timers.length)
    (hfresh : FreshRun env (step env st (.leaveProject S.id projectId)) evs) :
    (∃ (ids : List String) (members : List OnlineMember),
      (step env (run env st (.leaveProject S.id projectId :: evs)) .timeout).outbox =
        (run env st (.leaveProject S.id projectId :: evs)).outbox ++
          ids.map (fun id => ⟨id, "onlineMembers", .onlineMembers members⟩) ∧
      ids = ((run env st (.leaveProject S.id projectId :: evs)).roomGet
              ("project_" ++ projectId)).getD [] ∧
      (∀ x, x ∈ ids ↔ ("project_" ++ projectId, x) ∈
        (run env st (.leaveProject S.id projectId :: evs)).memberships) ∧
      members.map (fun m => m.socketId) = ids ∧
      (∀ m ∈ members, ∃ s ∈ (run env st (.leaveProject S.id projectId :: evs)).sockets,
        s.id = m.socketId ∧ m._id = s.userId ∧ m.username = s.username)) ∧
    (∀ (st2 : ServerState) (room socketId : String), WF st2 →
      ∃ (ids : List String) (members : List OnlineMember),
        fireTimer (.disconnectRecompute room socketId) st2 =
          { st2 with outbox := (st2.outbox ++
              ids.map (fun id => ⟨id, "onlineMembers", .onlineMembers members⟩)) } ∧
        (∀ x, x ∈ ids ↔ ((room, x) ∈ st2.memberships ∧ x ≠ socketId)) ∧
        members.map (fun m => m.socketId) = ids) ∧
    (∀ (st2 : ServerState) (pid : String), WF st2 →
      ∃ (ids : List String) (members : List OnlineMember),
        fireTimer (.leaveRecompute pid) st2 =
          { st2 with outbox := (st2.outbox ++
              ids.map (fun id => ⟨id, "onlineMembers", .onlineMembers members⟩)) } ∧
        (∀ x, x ∈ ids ↔ ("project_" ++ pid, x) ∈ st2.memberships) ∧
        members.map (fun m => m.socketId) = ids) := by
  refine ⟨?_, ?_, ?_⟩
  · have hf : st.findSocket S.id = some S := findSocket_of_mem hwf.ids_nodup hS
    have hrun : run env st (.leaveProject S.id projectId :: evs) =
        run env (step env st (.leaveProject S.id projectId)) evs := rfl
    have hwf1 : WF (step env st (.leaveProject S.id projectId)) :=
      step_wf env hwf _ trivial
    have hwfm : WF (run env st (.leaveProject S.id projectId :: evs)) := by
      rw [hrun]; exact run_wf evs hwf1 hfresh
    have ht1 : (step env st (.leaveProject S.id projectId)).timers =
        st.timers ++ [.leaveRecompute projectId] := by
      simp only [step, hf, onLeaveProject, ServerState.leave]
    have hle : evs.count .timeout ≤
        (step env st (.leaveProject S.id projectId)).timers.length := by
      rw [ht1, List.length_append, hcount]; omega
    obtain ⟨more, hmore⟩ :=
      run_timers_drop env evs (step env st (.leaveProject S.id projectId)) hle
    rw [← hrun, ht1, hcount, List.drop_left] at hmore
    generalize run env st (.leaveProject S.id projectId :: evs) = stm at hwfm hmore ⊢
    have hwf2 : WF { stm with timers := more } := hwfm.of_same rfl rfl
    obtain ⟨ids, members, -, hmem, hids, hmap, hent, hcomp, hemit⟩ :=
      recompute_spec hwf2 ("project_" ++ projectId) none
    refine ⟨ids, members, ?_, ?_, ?_, hmap, hent⟩
    · simp only [step, hmore, List.singleton_append, fireTimer]
      rw [hcomp, hemit]
    · rw [hids, filter_ne_none]
      exact congrArg (fun o => Option.getD o []) (roomGet_congr rfl _)
    · intro x
      rw [hmem x]
      simp
  · intro st2 room socketId hwf2
    obtain ⟨ids, members, -, hmem, -, hmap, -, hcomp, hemit⟩ :=
      recompute_spec hwf2 room (some socketId)
    refine ⟨ids, members, ?_, ?_, hmap⟩
    · simp only [fireTimer]
      rw [hcomp, hemit]
    · intro x
      rw [hmem x]
      simp
  · intro st2 pid hwf2
    obtain ⟨ids, members, -, hmem, -, hmap, -, hcomp, hemit⟩ :=
      recompute_spec hwf2 ("project_" ++ pid) none
    refine ⟨ids, members, ?_, ?_, hmap⟩
    · simp only [fireTimer]
      rw [hcomp, hemit]
    · intro x
      rw [hmem x]
      simp

/-- Witness for C19: while the timer of an earlier leave of A is still pending and after a
test echo, S leaves room project_42; the older timer fires, S rejoins, a relay passes and
T joins; only then the timer of S's leave fires: the list sent names both S and T. -/
theorem delayed_recompute_reads_current_witness :
    ∃ (ids : List String) (members : List OnlineMember),
      (step exampleEnv
          (run exampleEnv
            (run exampleEnv {}
              [.connect { id := "A", token := some "a" }, .testNotification "A" .nullish,
                .connect { id := "S", token := some "s" },
                .connect { id := "T", token := some "t" }, .joinProject "A" "42",
                .joinProject "S" "42", .leaveProject "A" "7"])
            (.leaveProject "S" "42" ::
              [.timeout, .joinProject "S" "42",
                .userActivity "A" (some ⟨"42", [("activity", .str "typing")]⟩),
                .joinProject "T" "42"]))
          .timeout).outbox =
        (run exampleEnv
            (run exampleEnv {}
              [.connect { id := "A", token := some "a" }, .testNotification "A" .nullish,
                .connect { id := "S", token := some "s" },
                .connect { id := "T", token := some "t" }, .joinProject "A" "42",
                .joinProject "S" "42", .leaveProject "A" "7"])
            (.leaveProject "S" "42" ::
              [.timeout, .joinProject "S" "42",
                .userActivity "A" (some ⟨"42", [("activity", .str "typing")]⟩),
                .joinProject "T" "42"])).outbox ++
          ids.map (fun id => ⟨id, "onlineMembers", .onlineMembers members⟩) ∧
      members.map (fun m => m.socketId) = ids ∧ "S" ∈ ids ∧ "T" ∈ ids := by
  obtain ⟨⟨ids, members, h1, -, h3, h4, -⟩, -, -⟩ :=
    delayed_recompute_reads_current exampleEnv
      (run exampleEnv {}
        [.connect { id := "A", token := some "a" }, .testNotification "A" .nullish,
          .connect { id := "S", token := some "s" },
          .connect { id := "T", token := some "t" }, .joinProject "A" "42",
          .joinProject "S" "42", .leaveProject "A" "7"])
      ⟨"S", "s", "s", ⟨"s", "s"⟩⟩ "42"
      [.timeout, .joinProject "S" "42",
        .userActivity "A" (some ⟨"42", [("activity", .str "typing")]⟩),
        .joinProject "T" "42"]
      (reachable_wf (reachable_run _ Reachable.start (by decide))) (by decide) (by decide)
      (by decide)
  exact ⟨ids, members, h1, h4, (h3 "S").mpr (by decide), (h3 "T").mpr (by decide)⟩

/-- The scenario of the witness for C19 evaluated: the list sent when the timer fires. -/
theorem delayed_recompute_scenario :
    ((run exampleEnv {}
        [.connect { id := "A", token := some "a" }, .connect { id := "S", token := some "s" },
          .connect { id := "T", token := some "t" }, .joinProject "A" "42",
          .joinProject "S" "42", .leaveProject "S" "42", .joinProject "S" "42",
          .joinProject "T" "42", .timeout]).outbox.reverse.head?) =
      some ⟨"T", "onlineMembers",
        .onlineMembers [⟨"a", "a", "A"⟩, ⟨"s", "s", "S"⟩, ⟨"t", "t", "T"⟩]⟩ := by
  decide

/-! ### Personal rooms -/

/-- C20 (personal rooms are private). In every state reachable by connection attempts,
joinProject and leaveProject requests with any project ids, closes and timer expiries
(and by relays, test echoes and emissions of the notification service as well),
each live session subscribed to a room "user_" followed by `I` has identity `I`, and each
member of such a room is a live session; the room named by a joinProject request starts
with "project_" and so is no personal room, and the request adds no membership to any
other room. -/
theorem personal_rooms_private (env : AuthEnv) (st : ServerState) (hr : Reachable env st) :
    (∀ (I : String) (s : Session), s ∈ st.sockets →
      ("user_" ++ I, s.id) ∈ st.memberships → s.userId = I) ∧
    (∀ (I x : String), ("user_" ++ I, x) ∈ st.memberships →
      ∃ s ∈ st.sockets, s.id = x ∧ s.userId = I) ∧
    (∀ (projectId I : String),
      startsWith ("project_" ++ projectId) "project_" = true ∧
      "project_" ++ projectId ≠ "user_" ++ I) ∧
    (∀ (socketId projectId room x : String),
      (room, x) ∈ (step env st (.joinProject socketId projectId)).memberships →
      (room, x) ∈ st.memberships ∨ (room = "project_" ++ projectId ∧ x = socketId)) := by
  have hwf := reachable_wf hr
  refine ⟨?_, ?_, ?_, ?_⟩
  · intro I s hs hm
    exact hwf.personal _ hm I rfl s hs rfl
  · intro I x hm
    obtain ⟨s, hs, hid⟩ := hwf.members_live _ hm
    exact ⟨s, hs, hid, hwf.personal _ hm I rfl s hs hid⟩
  · intro projectId I
    refine ⟨?_, project_ne_user projectId I⟩
    simp only [startsWith, String.data_append]
    exact List.isPrefixOf_iff_prefix.mpr ⟨_, rfl⟩
  · intro socketId projectId room x hm
    simp only [step] at hm
    cases hf : st.findSocket socketId with
    | none => rw [hf] at hm; exact Or.inl hm
    | some s =>
      obtain ⟨-, hid⟩ := findSocket_some hf
      rw [hf] at hm
      have hm1 : (room, x) ∈ (st.join s.id ("project_" ++ projectId)).memberships := by
        simp only [onJoinProject] at hm
        split at hm
        · exact hm
        · exact hm
      unfold ServerState.join at hm1
      split at hm1
      · exact Or.inl hm1
      · rcases List.mem_append.mp hm1 with h | h
        · exact Or.inl h
        · rw [List.mem_singleton] at h
          rw [← hid]
          exact Or.inr ⟨congrArg Prod.fst h, congrArg Prod.snd h⟩

/-- Witness for C20: session B of identity b asks to join the project whose id is the
text "user_a" while A of identity a is connected; the personal room of a still holds A
only. -/
theorem personal_rooms_private_witness :
    (run exampleEnv {}
        [.connect { id := "A", token := some "a" }, .connect { id := "B", token := some "b" },
          .joinProject "B" "user_a", .joinProject "B" "a"]).roomGet "user_a" = some ["A"] ∧
    ∀ (I : String) (s : Session),
      s ∈ (run exampleEnv {}
        [.connect { id := "A", token := some "a" }, .connect { id := "B", token := some "b" },
          .joinProject "B" "user_a", .joinProject "B" "a"]).sockets →
      ("user_" ++ I, s.id) ∈ (run exampleEnv {}
        [.connect { id := "A", token := some "a" }, .connect { id := "B", token := some "b" },
          .joinProject "B" "user_a", .joinProject "B" "a"]).memberships → s.userId = I :=
  ⟨by decide,
   (personal_rooms_private exampleEnv
      (run exampleEnv {}
        [.connect { id := "A", token := some "a" }, .connect { id := "B", token := some "b" },
          .joinProject "B" "user_a", .joinProject "B" "a"])
      (reachable_run _ Reachable.start (by decide))).1⟩

end Server

namespace NotificationService

/-! ### Project joined -/

/-- C18 (project joined). For a project and a new member, the operation makes exactly one
call of the primitive, with recipient the project owner, sender the `_id` of the new
member, type "project_joined" and the project id in its data. When the strings of owner
and member differ, that call persists exactly one record (none only if `save()` fails);
when they are equal nothing is persisted or emitted. -/
theorem project_joined_single_call (store : Store) (w : World) (io : Bool)
    (project : Project) (m : Member) :
    ∃ a, (createProjectJoinedNotification store project (some m) io w).1.calls =
        w.calls ++ [a] ∧
      a.recipient = project.owner ∧ a.sender = m._id ∧ a.type = "project_joined" ∧
      a.data.projectId = project._id ∧
      (∀ o n, project.owner.toStr = .ok o → m._id.toStr = .ok n →
        (o ≠ n →
          (createProjectJoinedNotification store project (some m) io w).1.saved =
            w.saved ++ (if store (newNotification a) = .saveFails then []
                        else [newNotification a])) ∧
        (o = n →
          (createProjectJoinedNotification store project (some m) io w).1.saved = w.saved ∧
          (createProjectJoinedNotification store project (some m) io w).1.emitted =
            w.emitted ∧
          (createProjectJoinedNotification store project (some m) io w).2 = .ok none)) := by
  unfold createProjectJoinedNotification
  simp only [createNotification_eq]
  refine ⟨_, rfl, rfl, rfl, rfl, rfl, ?_⟩
  intro o n ho hn
  have hn1 : (NotifyArgs.mk project.owner m._id "project_joined" "New Team Member"
      (m.username ++ " joined your project: \"" ++ project.name ++ "\"")
      { projectId := project._id } io).sender.toStr = .ok n := hn
  have ho1 : (NotifyArgs.mk project.owner m._id "project_joined" "New Team Member"
      (m.username ++ " joined your project: \"" ++ project.name ++ "\"")
      { projectId := project._id } io).recipient.toStr = .ok o := ho
  constructor
  · intro hne
    simp only [savedBy, attempted, ho1, hn1]
    simp [hne]
  · intro heq
    simp only [savedBy, emittedBy, returnedBy, attempted, ho1, hn1]
    simp [heq]

/-- Witness for C18: U2 joins the project of U1, and U1 joins their own project. -/
theorem project_joined_single_call_witness :
    (createProjectJoinedNotification Store.reliable
        { _id := .str "p1", name := "P", owner := .str "U1" }
        (some { _id := .str "U2", username := "bob" }) true {}).1.saved =
      [ { recipient := .str "U1", sender := .str "U2", type := "project_joined",
          title := "New Team Member", message := "bob joined your project: \"P\"",
          data := { projectId := .str "p1" } } ] ∧
    (createProjectJoinedNotification Store.reliable
        { _id := .str "p1", name := "P", owner := .str "U1" }
        (some { _id := .obj "U1" (.str "U1"), username := "ann" }) true {}).1.saved = [] := by
  obtain ⟨b, -, -, -, -, -, hb⟩ :=
    project_joined_single_call Store.reliable {} true
      { _id := .str "p1", name := "P", owner := .str "U1" }
      { _id := .obj "U1" (.str "U1"), username := "ann" }
  exact ⟨by decide, ((hb "U1" "U1" rfl rfl).2 rfl).1⟩

/-! ### Delivery only after persistence -/

/-- C21 (no live delivery without persistence). For every argument object, store and
state: `createNotification` adds at most one event, and such an event is named
"newNotification", carries the record built from the arguments, and exists only when
`save()` and the three `populate()` calls on that record all succeeded, the record being
then persisted and returned. If `save()` fails nothing is persisted and nothing is
emitted. If a `populate()` fails after the save (recipient and sender present and
different), the record is persisted but nothing is emitted and `undefined` is returned. -/
theorem no_delivery_without_persistence (store : Store) (a : NotifyArgs) (w : World) :
    (∃ es, (createNotification store a w).1.emitted = w.emitted ++ es ∧ es.length ≤ 1 ∧
      ∀ e ∈ es, e.event = "newNotification" ∧ e.payload = newNotification a ∧
        store (newNotification a) = .ok ∧
        (createNotification store a w).1.saved = w.saved ++ [newNotification a] ∧
        (createNotification store a w).2 = .ok (some (newNotification a))) ∧
    (store (newNotification a) = .saveFails →
      (createNotification store a w).1.saved = w.saved ∧
      (createNotification store a w).1.emitted = w.emitted ∧
      (createNotification store a w).2 = .ok none) ∧
    (∀ r s, a.recipient.toStr = .ok r → a.sender.toStr = .ok s → r ≠ s →
      (store (newNotification a) = .populateSenderFails ∨
        store (newNotification a) = .populateProjectFails ∨
        store (newNotification a) = .populateTaskFails) →
      (createNotification store a w).1.saved = w.saved ++ [newNotification a] ∧
      (createNotification store a w).1.emitted = w.emitted ∧
      (createNotification store a w).2 = .ok none) := by
  rw [createNotification_eq]
  refine ⟨⟨emittedBy store a, rfl, ?_, ?_⟩, ?_, ?_⟩
  · unfold emittedBy
    cases attempted a with
    | none => simp
    | some p =>
      obtain ⟨r, n⟩ := p
      simp only
      split <;> simp
  · intro e he
    unfold emittedBy at he
    cases hat : attempted a with
    | none => simp [hat] at he
    | some p =>
      obtain ⟨r, n⟩ := p
      have hn : n = newNotification a := by
        unfold attempted at hat
        cases hr : a.recipient.toStr with
        | error e1 => simp [hr] at hat
        | ok r1 =>
          cases hs : a.sender.toStr with
          | error e1 => simp [hr, hs] at hat
          | ok s1 =>
            simp only [hr, hs] at hat
            split at hat
            · simp at hat
            · simp only [Option.some.injEq, Prod.mk.injEq] at hat
              exact hat.2.symm
      subst hn
      simp only [hat] at he
      split at he
      · rename_i hok
        simp only [List.mem_singleton] at he
        subst he
        simp [savedBy, returnedBy, hat, hok.1]
      · simp at he
  · intro hst
    unfold savedBy emittedBy returnedBy
    cases hat : attempted a with
    | none => simp
    | some p =>
      obtain ⟨r, n⟩ := p
      have hn : n = newNotification a := by
        unfold attempted at hat
        cases hr : a.recipient.toStr with
        | error e1 => simp [hr] at hat
        | ok r1 =>
          cases hs : a.sender.toStr with
          | error e1 => simp [hr, hs] at hat
          | ok s1 =>
            simp only [hr, hs] at hat
            split at hat
            · simp at hat
            · simp only [Option.some.injEq, Prod.mk.injEq] at hat
              exact hat.2.symm
      subst hn
      simp [hst]
  · intro r s hr hs hrs hst
    have hat : attempted a = some (r, newNotification a) := by
      simp [attempted, hr, hs, hrs]
    unfold savedBy emittedBy returnedBy
    rcases hst with h | h | h <;> simp [hat, h]

/-- Witness for C21: a failing `save()` and a failing `populate()` for U1 notifying U2. -/
theorem no_delivery_without_persistence_witness :
    ((createNotification (fun _ => .saveFails)
      { recipient := .str "U2", sender := .str "U1", type := "task_assigned",
        title := "New Task Assigned", message := "m", io := true } {}).1.saved = [] ∧
     (createNotification (fun _ => .saveFails)
      { recipient := .str "U2", sender := .str "U1", type := "task_assigned",
        title := "New Task Assigned", message := "m", io := true } {}).1.emitted = [] ∧
     (createNotification (fun _ => .saveFails)
      { recipient := .str "U2", sender := .str "U1", type := "task_assigned",
        title := "New Task Assigned", message := "m", io := true } {}).2 = .ok none) ∧
    ((createNotification (fun _ => .populateProjectFails)
      { recipient := .str "U2", sender := .str "U1", type := "task_assigned",
        title := "New Task Assigned", message := "m", io := true } {}).1.saved =
      [{ recipient := .str "U2", sender := .str "U1", type := "task_assigned",
         title := "New Task Assigned", message := "m", data := {} }] ∧
     (createNotification (fun _ => .populateProjectFails)
      { recipient := .str "U2", sender := .str "U1", type := "task_assigned",
        title := "New Task Assigned", message := "m", io := true } {}).1.emitted = [] ∧
     (createNotification (fun _ => .populateProjectFails)
      { recipient := .str "U2", sender := .str "U1", type := "task_assigned",
        title := "New Task Assigned", message := "m", io := true } {}).2 = .ok none) :=
  ⟨(no_delivery_without_persistence (fun _ => .saveFails)
      { recipient := .str "U2", sender := .str "U1", type := "task_assigned",
        title := "New Task Assigned", message := "m", io := true } {}).2.1 rfl,
   (no_delivery_without_persistence (fun _ => .populateProjectFails)
      { recipient := .str "U2", sender := .str "U1", type := "task_assigned",
        title := "New Task Assigned", message := "m", io := true } {}).2.2
      "U2" "U1" rfl rfl (by decide) (Or.inr (Or.inl rfl))⟩

end NotificationService

namespace Server

/-! ### Identity stamped by the server -/

/-- C22 (server-stamped identity). Let `S` be the session produced by the handshake of a
socket, so that its identity and username are those of the user the middleware found. For
every message object a client sends on `S`, each event relayed by the "userActivity"
listener is named "userActivity" and carries that identity and username with the
`activity` property of the message, and each event relayed by the "taskDeleted" listener
carries the `taskId` and `taskTitle` properties with that identity as `deletedBy`: nothing
else of the message appears. Hence two messages with the same `activity` (resp. `taskId`
and `taskTitle`) relay events of identical name and content, and when they also name the
same project the resulting states are equal. A payload that is `undefined` or `null`
makes the listener throw and relays nothing. -/
theorem server_stamped_identity (env : AuthEnv) (socket : Socket) (S : Session)
    (st : ServerState) (m m2 : ClientMessage) (h : handshake env socket = some S) :
    (∃ token uid, socket.token = some token ∧ env.verify token = .ok uid ∧
      env.findById uid = .ok (some S.user) ∧
      S.userId = S.user._id ∧ S.username = S.user.username) ∧
    (∃ (targets : List String),
      onUserActivityMessage S (some m) st =
        .ok { st with outbox := (st.outbox ++ targets.map (fun id =>
          ⟨id, "userActivity",
            .userActivity S.user._id S.user.username (m.get "activity")⟩)) }) ∧
    (∃ (targets : List String),
      onTaskDeletedMessage S (some m) st =
        .ok { st with outbox := (st.outbox ++ targets.map (fun id =>
          ⟨id, "taskDeleted",
            .taskDeleted (m.get "taskId") (m.get "taskTitle") S.user._id⟩)) }) ∧
    (m2.get "activity" = m.get "activity" →
      ∃ (targets targets2 : List String),
        onUserActivityMessage S (some m) st =
          .ok { st with outbox := (st.outbox ++ targets.map (fun id =>
            ⟨id, "userActivity",
              .userActivity S.user._id S.user.username (m.get "activity")⟩)) } ∧
        onUserActivityMessage S (some m2) st =
          .ok { st with outbox := (st.outbox ++ targets2.map (fun id =>
            ⟨id, "userActivity",
              .userActivity S.user._id S.user.username (m.get "activity")⟩)) } ∧
        (m2.projectId = m.projectId → targets2 = targets)) ∧
    (m2.get "taskId" = m.get "taskId" → m2.get "taskTitle" = m.get "taskTitle" →
      ∃ (targets targets2 : List String),
        onTaskDeletedMessage S (some m) st =
          .ok { st with outbox := (st.outbox ++ targets.map (fun id =>
            ⟨id, "taskDeleted",
              .taskDeleted (m.get "taskId") (m.get "taskTitle") S.user._id⟩)) } ∧
        onTaskDeletedMessage S (some m2) st =
          .ok { st with outbox := (st.outbox ++ targets2.map (fun id =>
            ⟨id, "taskDeleted",
              .taskDeleted (m.get "taskId") (m.get "taskTitle") S.user._id⟩)) } ∧
        (m2.projectId = m.projectId → targets2 = targets)) ∧
    (m2.projectId = m.projectId → m2.get "activity" = m.get "activity" →
      onUserActivityMessage S (some m2) st = onUserActivityMessage S (some m) st) ∧
    (m2.projectId = m.projectId → m2.get "taskId" = m.get "taskId" →
      m2.get "taskTitle" = m.get "taskTitle" →
      onTaskDeletedMessage S (some m2) st = onTaskDeletedMessage S (some m) st) ∧
    onUserActivityMessage S none st = .error .typeError ∧
    onTaskDeletedMessage S none st = .error .typeError := by
  obtain ⟨token, uid, htok, -, hver, hfind, hS⟩ := handshake_some h
  have hid : S.userId = S.user._id := by rw [hS]
  have hname : S.username = S.user.username := by rw [hS]
  have hact : ∀ (x : ClientMessage), onUserActivityMessage S (some x) st =
      .ok { st with outbox := (st.outbox ++
        (((st.roomGet ("project_" ++ x.projectId)).getD []).filter
          (fun y => decide (some y ≠ some S.id))).map (fun id =>
            ⟨id, "userActivity",
              .userActivity S.user._id S.user.username (x.get "activity")⟩)) } := by
    intro x
    simp only [onUserActivityMessage, onUserActivity, emitRoom_eq, hid, hname]
  have hdel : ∀ (x : ClientMessage), onTaskDeletedMessage S (some x) st =
      .ok { st with outbox := (st.outbox ++
        (((st.roomGet ("project_" ++ x.projectId)).getD []).filter
          (fun y => decide (some y ≠ some S.id))).map (fun id =>
            ⟨id, "taskDeleted",
              .taskDeleted (x.get "taskId") (x.get "taskTitle") S.user._id⟩)) } := by
    intro x
    simp only [onTaskDeletedMessage, onTaskDeleted, emitRoom_eq, hid]
  refine ⟨⟨token, uid, htok, hver, hfind, hid, hname⟩, ⟨_, hact m⟩, ⟨_, hdel m⟩, ?_, ?_, ?_, ?_,
    rfl, rfl⟩
  · intro ha
    refine ⟨_, ((st.roomGet ("project_" ++ m2.projectId)).getD []).filter
      (fun y => decide (some y ≠ some S.id)), hact m, ?_, ?_⟩
    · rw [← ha]; exact hact m2
    · intro hp; rw [hp]
  · intro h1 h2
    refine ⟨_, ((st.roomGet ("project_" ++ m2.projectId)).getD []).filter
      (fun y => decide (some y ≠ some S.id)), hdel m, ?_, ?_⟩
    · rw [← h1, ← h2]; exact hdel m2
    · intro hp; rw [hp]
  · intro hp ha
    rw [hact m2, hact m, hp, ha]
  · intro hp h1 h2
    rw [hdel m2, hdel m, hp, h1, h2]

/-- Witness for C22: session B of user b, in room project_42 with A, sends an activity
that claims to come from "admin" and a deletion that claims to be by "admin": A receives
both stamped with b, exactly as for the plain messages. -/
theorem server_stamped_identity_witness :
    onUserActivityMessage ⟨"B", "b", "b", ⟨"b", "b"⟩⟩
        (some ⟨"42", [("activity", .str "typing"), ("user", .obj "admin" (.str "admin")),
                      ("username", .str "admin")]⟩)
        (run exampleEnv {}
          [.connect { id := "A", token := some "a" }, .connect { id := "B", token := some "b" },
            .joinProject "A" "42", .joinProject "B" "42"]) =
      onUserActivityMessage ⟨"B", "b", "b", ⟨"b", "b"⟩⟩
        (some ⟨"42", [("activity", .str "typing")]⟩)
        (run exampleEnv {}
          [.connect { id := "A", token := some "a" }, .connect { id := "B", token := some "b" },
            .joinProject "A" "42", .joinProject "B" "42"]) ∧
    onTaskDeletedMessage ⟨"B", "b", "b", ⟨"b", "b"⟩⟩
        (some ⟨"42", [("deletedBy", .str "admin"), ("taskId", .str "t1"),
                      ("taskTitle", .str "Ship v1")]⟩)
        (run exampleEnv {}
          [.connect { id := "A", token := some "a" }, .connect { id := "B", token := some "b" },
            .joinProject "A" "42", .joinProject "B" "42"]) =
      onTaskDeletedMessage ⟨"B", "b", "b", ⟨"b", "b"⟩⟩
        (some ⟨"42", [("taskId", .str "t1"), ("taskTitle", .str "Ship v1")]⟩)
        (run exampleEnv {}
          [.connect { id := "A", token := some "a" }, .connect { id := "B", token := some "b" },
            .joinProject "A" "42", .joinProject "B" "42"]) :=
  ⟨(server_stamped_identity exampleEnv { id := "B", token := some "b" }
      ⟨"B", "b", "b", ⟨"b", "b"⟩⟩
      (run exampleEnv {}
        [.connect { id := "A", token := some "a" }, .connect { id := "B", token := some "b" },
          .joinProject "A" "42", .joinProject "B" "42"])
      ⟨"42", [("activity", .str "typing")]⟩
      ⟨"42", [("activity", .str "typing"), ("user", .obj "admin" (.str "admin")),
              ("username", .str "admin")]⟩ rfl).2.2.2.2.2.1 rfl (by decide),
   (server_stamped_identity exampleEnv { id := "B", token := some "b" }
      ⟨"B", "b", "b", ⟨"b", "b"⟩⟩
      (run exampleEnv {}
        [.connect { id := "A", token := some "a" }, .connect { id := "B", token := some "b" },
          .joinProject "A" "42", .joinProject "B" "42"])
      ⟨"42", [("taskId", .str "t1"), ("taskTitle", .str "Ship v1")]⟩
      ⟨"42", [("deletedBy", .str "admin"), ("taskId", .str "t1"),
              ("taskTitle", .str "Ship v1")]⟩ rfl).2.2.2.2.2.2.1 rfl (by decide) (by decide)⟩

/-- The scenario of the witness for C22 evaluated: what A receives from the spoofing
messages of B. -/
theorem server_stamped_identity_scenario :
    ((onUserActivity ⟨"B", "b", "b", ⟨"b", "b"⟩⟩ "42"
        (ClientMessage.get ⟨"42", [("activity", .str "typing"),
          ("user", .obj "admin" (.str "admin")), ("username", .str "admin")]⟩ "activity")
        (run exampleEnv {}
          [.connect { id := "A", token := some "a" }, .connect { id := "B", token := some "b" },
            .joinProject "A" "42", .joinProject "B" "42"])).outbox.drop 5) =
      [⟨"A", "userActivity", .userActivity "b" "b" (.str "typing")⟩] ∧
    ((onTaskDeleted ⟨"B", "b", "b", ⟨"b", "b"⟩⟩ "42"
        (ClientMessage.get ⟨"42", [("deletedBy", .str "admin"), ("taskId", .str "t1"),
          ("taskTitle", .str "Ship v1")]⟩ "taskId")
        (ClientMessage.get ⟨"42", [("deletedBy", .str "admin"), ("taskId", .str "t1"),
          ("taskTitle", .str "Ship v1")]⟩ "taskTitle")
        (run exampleEnv {}
          [.connect { id := "A", token := some "a" }, .connect { id := "B", token := some "b" },
            .joinProject "A" "42", .joinProject "B" "42"])).outbox.drop 5) =
      [⟨"A", "taskDeleted", .taskDeleted (.str "t1") (.str "Ship v1") "b"⟩] := by
  decide

end Server

end PeltonAI
